import Mathlib

/-!
# Verification of the KAOS x86_64 kernel core (SQLpassion/osdev)

Shallow embedding of the kernel subsystems the specification claims talk
about, translated from the C sources under `src/main64/kernel/`:

* `Heap`    — the first-fit kernel heap (`memory/heap.c`)
* `KList`   — the doubly linked list helpers (`list.c`)
* `PMM`     — the physical page-frame allocator (`memory/physical-memory.c`)
* `VMM`     — the page-fault handler and ISR dispatch (`memory/virtual-memory.c`, `isr/idt.c`)
* `Timer`   — the PIT programming (`drivers/timer.c`, `kernel.c`)
* `Mt`      — the round-robin scheduler (`multitasking/multitasking.c`)
* `Fat12`   — the FAT12 file layer (`io/fat12.c`)
* `Syscalls`— the syscall dispatcher (`syscalls/syscall.c`)

Machine integers are modelled as `Nat` (with explicit `% 2 ^ w` where the C
code truncates), C linked lists as Lean lists of `(key, payload)` pairs in
node order, and byte buffers / disk sectors as functions `Nat → Nat`.
-/

namespace Heap

/-- A heap block header, from `heap.h`: `int InUse : 1; int Size : 31;`.
`size` includes the 4-byte header itself. -/
structure HeapBlock where
  inUse : Bool
  size : Nat
deriving Repr, DecidableEq

/-- `#define HEADER_SIZE 4` (heap.h). -/
def HEADER_SIZE : Nat := 4

/-- `INITIAL_HEAP_SIZE = 0x1000` (heap.c). -/
def INITIAL_HEAP_SIZE : Nat := 0x1000

/-- `HEAP_GROWTH = 0x1000` (heap.c). -/
def HEAP_GROWTH : Nat := 0x1000

/-- The heap chain: the block headers laid out from `HEAP_START_OFFSET`,
plus the current heap extent `HEAP_END_OFFSET - HEAP_START_OFFSET`.
A block at list position `i` starts at byte offset `sum of sizes before i`. -/
structure HeapState where
  blocks : List HeapBlock
  heapSize : Nat
deriving Repr, DecidableEq

/-- `InitHeap()`: one free block spanning the initial heap. -/
def InitHeap : HeapState := ⟨[⟨false, INITIAL_HEAP_SIZE⟩], INITIAL_HEAP_SIZE⟩

/-- One pass of `Merge()` (heap.c:182): walk the chain; whenever the current
and the following block are both free, fold the following block into the
current one and continue *after* the merged pair.  The C loop also inspects,
for the final block, the zeroed terminator word sitting at `HEAP_END_OFFSET`
(`InUse = 0`, `Size = 0`): a free final block therefore counts one extra
"merge" with that terminator, which changes no size but increments the
returned `mergedBlocks` counter. -/
def MergePass : List HeapBlock → List HeapBlock × Nat
  | [] => ([], 0)
  | [b] => ([b], if b.inUse then 0 else 1)
  | b :: c :: rest =>
    if !b.inUse && !c.inUse then
      let r := MergePass rest
      (⟨false, b.size + c.size⟩ :: r.1, r.2 + 1)
    else
      let r := MergePass (c :: rest)
      (b :: r.1, r.2)

/-- The `while (Merge() > 1) {}` loop of `free()` (heap.c:114): run a merge
pass; repeat as long as the pass just performed reported more than one merge.
The state after `free` is the output of the last executed pass. -/
def MergeLoop : Nat → List HeapBlock → List HeapBlock
  | 0, bs => bs
  | fuel + 1, bs =>
    let r := MergePass bs
    if r.2 > 1 then MergeLoop fuel r.1 else r.1

/-- Mark the block at chain position `i` as free (`block->InUse = 0`). -/
def setFreeAt : List HeapBlock → Nat → List HeapBlock
  | [], _ => []
  | b :: rest, 0 => ⟨false, b.size⟩ :: rest
  | b :: rest, i + 1 => b :: setFreeAt rest i

/-- `free(ptr)` (heap.c:107): clear the block's `InUse` bit, then merge while
a pass reports more than one merged pair.  `i` is the chain position of the
block whose payload `ptr` points to.  A pass that performs at least two
merges shortens the chain, so `blocks.length + 1` passes always suffice. -/
def free (s : HeapState) (i : Nat) : HeapState :=
  { s with blocks := MergeLoop (s.blocks.length + 1) (setFreeAt s.blocks i) }

/-- malloc's size adjustment (heap.c:69-73):
`Size = Size + HEADER_SIZE; Size = (Size + HEADER_SIZE - 1) & ~(HEADER_SIZE - 1);`. -/
def roundedSize (n : Nat) : Nat := (n + HEADER_SIZE + HEADER_SIZE - 1) / HEADER_SIZE * HEADER_SIZE

/-- `Find(Size)` (heap.c:118): position of the first block that is free and
at least `req` bytes large. -/
def findFree : List HeapBlock → Nat → Option Nat
  | [], _ => none
  | b :: rest, req =>
    if !b.inUse && req ≤ b.size then some 0
    else (findFree rest req).map (· + 1)

/-- `Allocate(Block, Size)` (heap.c:155): take the block at position `i`; if
at least `HEADER_SIZE + 1` bytes would remain, split off the remainder as a
free block, otherwise hand out the whole block. -/
def Allocate : List HeapBlock → Nat → Nat → List HeapBlock
  | [], _, _ => []
  | b :: rest, 0, req =>
    if req + (HEADER_SIZE + 1) ≤ b.size then
      ⟨true, req⟩ :: ⟨false, b.size - req⟩ :: rest
    else
      ⟨true, b.size⟩ :: rest
  | b :: rest, i + 1, req => b :: Allocate rest i req

/-- The miss path of `malloc` (heap.c:91-97): `GetLastHeapBlock()` lands on
the zero terminator at `HEAP_END_OFFSET`; the code turns it into a free block
of `HEAP_GROWTH` bytes (i.e. appends one), advances `HEAP_END_OFFSET` by
`HEAP_GROWTH`, and runs a single `Merge()` pass. -/
def grow (s : HeapState) : HeapState :=
  ⟨(MergePass (s.blocks ++ [⟨false, HEAP_GROWTH⟩])).1, s.heapSize + HEAP_GROWTH⟩

/-- `malloc` after size adjustment: first-fit, else grow and retry.  The C
code retries via `malloc(Size - HEADER_SIZE)`, which re-rounds to the same
`req`, so the retry is a recursion at the same requested size; `fuel`
bounds that recursion. -/
def mallocLoop : Nat → HeapState → Nat → HeapState
  | 0, s, _ => s
  | fuel + 1, s, req =>
    match findFree s.blocks req with
    | some i => { s with blocks := Allocate s.blocks i req }
    | none => mallocLoop fuel (grow s) req

/-- `malloc(Size)` (heap.c:66).  Each growth round extends the heap by a
page, so `roundedSize n + 1` rounds of fuel are always enough. -/
def malloc (s : HeapState) (n : Nat) : HeapState :=
  mallocLoop (roundedSize n + 1) s (roundedSize n)

/-- Sum of the `Size` fields along the chain (what `DumpHeap` accumulates). -/
def sumBlocks (bs : List HeapBlock) : Nat := (bs.map (·.size)).sum

/-- All heap states produced by `InitHeap` followed by any sequence of
`malloc`/`free` calls. -/
inductive Reachable : HeapState → Prop
  | init : Reachable InitHeap
  | malloc (s : HeapState) (n : Nat) : Reachable s → Reachable (malloc s n)
  | free (s : HeapState) (i : Nat) : Reachable s → Reachable (free s i)

/-- Detects two adjacent blocks that are both free. -/
def hasAdjacentFreePair : List HeapBlock → Bool
  | b :: c :: rest => (!b.inUse && !c.inUse) || hasAdjacentFreePair (c :: rest)
  | _ => false

theorem mergePass_cons_cons (b c : HeapBlock) (rest : List HeapBlock) :
    MergePass (b :: c :: rest) =
      if !b.inUse && !c.inUse then
        (⟨false, b.size + c.size⟩ :: (MergePass rest).1, (MergePass rest).2 + 1)
      else (b :: (MergePass (c :: rest)).1, (MergePass (c :: rest)).2) := rfl

theorem mergePass_sum : ∀ bs : List HeapBlock, sumBlocks (MergePass bs).1 = sumBlocks bs
  | [] => rfl
  | [_] => by simp [MergePass]
  | b :: c :: rest => by
    rw [mergePass_cons_cons]
    by_cases hb : (!b.inUse && !c.inUse) = true
    · rw [if_pos hb]
      have h := mergePass_sum rest
      simp only [sumBlocks, List.map_cons, List.sum_cons] at *
      omega
    · rw [if_neg hb]
      have h := mergePass_sum (c :: rest)
      simp only [sumBlocks, List.map_cons, List.sum_cons] at *
      omega

theorem mergeLoop_sum (fuel : Nat) (bs : List HeapBlock) :
    sumBlocks (MergeLoop fuel bs) = sumBlocks bs := by
  induction fuel generalizing bs with
  | zero => rfl
  | succ fuel ih =>
    simp only [MergeLoop]
    split
    · rw [ih, mergePass_sum]
    · exact mergePass_sum bs

theorem setFreeAt_sum : ∀ (bs : List HeapBlock) (i : Nat),
    sumBlocks (setFreeAt bs i) = sumBlocks bs
  | [], _ => rfl
  | b :: rest, 0 => by simp [setFreeAt, sumBlocks]
  | b :: rest, i + 1 => by
    have h := setFreeAt_sum rest i
    simp only [sumBlocks] at h
    simp only [setFreeAt, sumBlocks, List.map_cons, List.sum_cons]
    omega

theorem allocate_sum : ∀ (bs : List HeapBlock) (i req : Nat),
    sumBlocks (Allocate bs i req) = sumBlocks bs
  | [], _, _ => rfl
  | b :: rest, 0, req => by
    simp only [Allocate]
    split
    · next h =>
      simp only [sumBlocks, List.map_cons, List.sum_cons]
      omega
    · simp [sumBlocks]
  | b :: rest, i + 1, req => by
    have h := allocate_sum rest i req
    simp only [sumBlocks] at h
    simp only [Allocate, sumBlocks, List.map_cons, List.sum_cons]
    omega

theorem grow_sum (s : HeapState) (h : sumBlocks s.blocks = s.heapSize) :
    sumBlocks (grow s).blocks = (grow s).heapSize := by
  show sumBlocks (MergePass (s.blocks ++ [⟨false, HEAP_GROWTH⟩])).1
    = s.heapSize + HEAP_GROWTH
  rw [mergePass_sum]
  simp only [sumBlocks, List.map_append, List.sum_append] at *
  simp [h]

theorem mallocLoop_sum (fuel : Nat) (s : HeapState) (req : Nat)
    (h : sumBlocks s.blocks = s.heapSize) :
    sumBlocks (mallocLoop fuel s req).blocks = (mallocLoop fuel s req).heapSize := by
  induction fuel generalizing s with
  | zero => exact h
  | succ fuel ih =>
    simp only [mallocLoop]
    split
    · simpa [allocate_sum] using h
    · exact ih (grow s) (grow_sum s h)

/-- **C9.** Heap coverage: the block chain's sizes sum to exactly
`HEAP_END_OFFSET - HEAP_START_OFFSET` in every state reachable by any
sequence of `malloc`/`free` calls; in particular the miss path of `malloc`
(`grow`) extends the heap by exactly one page (`HEAP_GROWTH = 0x1000`) while
inserting a free block of that size at the former end, preserving the sum. -/
theorem c9_block_sizes_sum_invariant (s : HeapState) (h : Reachable s) :
    sumBlocks s.blocks = s.heapSize ∧
      (∀ t : HeapState, (grow t).heapSize = t.heapSize + HEAP_GROWTH ∧
        sumBlocks (t.blocks ++ [⟨false, HEAP_GROWTH⟩]) = sumBlocks t.blocks + HEAP_GROWTH) := by
  constructor
  · induction h with
    | init => rfl
    | malloc s n _ ih => exact mallocLoop_sum _ s _ ih
    | free s i _ ih => simpa [free, mergeLoop_sum, setFreeAt_sum] using ih
  · intro t
    refine ⟨rfl, ?_⟩
    simp [sumBlocks]

/-- Witness for C9 at a concrete reachable state:
`free (malloc InitHeap 100) 0`. -/
theorem c9_block_sizes_sum_invariant_witness :
    sumBlocks (Heap.free (Heap.malloc InitHeap 100) 0).blocks
      = (Heap.free (Heap.malloc InitHeap 100) 0).heapSize :=
  (c9_block_sizes_sum_invariant _
    (.free _ 0 (.malloc _ 100 .init))).1

/-- The heap state reached from `InitHeap` by
`p1 = malloc(52); p2 = malloc(44); p3 = malloc(100); p4 = malloc(3880);
free(p1); free(p3); free(p2)`.
After the first four allocations the chain is
`[56 used, 48 used, 104 used, 3888 used]` (the last request takes the whole
remaining block because fewer than `HEADER_SIZE + 1` bytes would remain), so
`p1`, `p3`, `p2` are the blocks at positions 0, 2, 1 at the time they are
freed. -/
def c3State : HeapState :=
  Heap.free
    (Heap.free
      (Heap.free
        (Heap.malloc (Heap.malloc (Heap.malloc (Heap.malloc InitHeap 52) 44) 100) 3880)
        0)
      2)
    1

/-- **C3.** After `free(p2)` above, the chain is
`[104 free, 104 free, 3888 used]`: the single merge pass performed by
`free` merges `p1` with `p2` (one merge, so `Merge()` returns 1 and the
`while (Merge() > 1)` loop stops) and leaves the merged block adjacent to
the free block `p3` — two adjacent free blocks persist after a `free` of a
previously `malloc`ed pointer, contradicting the claimed invariant. -/
theorem c3_free_leaves_adjacent_free_blocks :
    c3State.blocks = [⟨false, 104⟩, ⟨false, 104⟩, ⟨true, 3888⟩] ∧
      hasAdjacentFreePair c3State.blocks = true := by
  constructor <;> rfl

end Heap

namespace KList

/-!
The doubly linked list of `list.c`, modelled as a Lean list of
`(Key, Payload)` pairs in node order (root first).
-/

/-- `AddEntryToList` (list.c:17): append a new `(payload, key)` node at the
end of the list. -/
def AddEntryToList (l : List (Nat × α)) (payload : α) (key : Nat) : List (Nat × α) :=
  l ++ [(key, payload)]

/-- `GetEntryFromList` (list.c:44): first node whose `Key` matches, or null. -/
def GetEntryFromList (l : List (Nat × α)) (key : Nat) : Option (Nat × α) :=
  l.find? (fun e => e.1 == key)

/-- `RemoveEntryFromList` (list.c:64) applied to the node found by
`GetEntryFromList`: drop the first node carrying `key`.  (When the removed
node is the sole head, the C code also writes through the now-null
`List->RootEntry`; that stray write lands in identity-mapped low memory and
does not alter the list structure.) -/
def RemoveEntryFromList : List (Nat × α) → Nat → List (Nat × α)
  | [], _ => []
  | e :: rest, key => if e.1 == key then rest else e :: RemoveEntryFromList rest key

end KList

namespace PMM

/-!
The physical page-frame allocator of `memory/physical-memory.c`.  A region's
bitmap (`BitmapMaskStartAddress` / `BitmapMaskSize`) is modelled as the list
of the 64-bit words the allocator scans, i.e. `BitmapMaskSize / 8` words;
`bitmapMaskSize` is kept in bytes as in the C descriptor.
-/

/-- `0xFFFFFFFFFFFFFFFF`, the full-word test in `AllocatePageFrame`, and also
`(unsigned long)-1`, the value `AllocatePageFrame` returns on exhaustion. -/
def UINT64_MAX : Nat := 2 ^ 64 - 1

/-- `PAGE_SIZE` (physical-memory.h). -/
def PAGE_SIZE : Nat := 4096

/-- A `PhysicalMemoryRegionDescriptor` (physical-memory.h). -/
structure Region where
  physicalMemoryStartAddress : Nat
  availablePageFrames : Nat
  bitmapMaskSize : Nat
  freePageFrames : Nat
  bitmapMask : List Nat
deriving Repr, DecidableEq, Inhabited

/-- The allocator state: the region descriptors of the `PhysicalMemoryLayout`,
the `TrackedPageFrames` list (key = PFN, payload = `MemoryRegionIndex`),
whether the heap is up (`IsHeapInitialized`), and `bib->AvailablePageFrames`. -/
structure PMMState where
  regions : List Region
  trackedPageFrames : List (Nat × Nat)
  heapInitialized : Bool
  availablePageFrames : Nat
deriving Repr, DecidableEq

/-- The inner word scan of `AllocatePageFrame` (physical-memory.c:164-194):
skip full words; inside the first non-full word take the lowest clear bit
`j`, set it, and report the bit index `i * 64 + j`.  Returns the frame index
relative to the region plus the updated word list. -/
def allocInWords : List Nat → Option (Nat × List Nat)
  | [] => none
  | w :: rest =>
    if w = UINT64_MAX then
      match allocInWords rest with
      | some (f, rest') => some (f + 64, w :: rest')
      | none => none
    else
      match (List.range 64).find? (fun j => !w.testBit j) with
      | some j => some (j, (w ||| (1 <<< j)) :: rest)
      | none =>
        match allocInWords rest with
        | some (f, rest') => some (f + 64, w :: rest')
        | none => none

/-- The per-region loop of `AllocatePageFrame`: first region (in order) with
a clear bit wins.  Returns `(pfn, regionIndex, updated regions)`. -/
def allocInRegions : List Region → Option (Nat × Nat × List Region)
  | [] => none
  | r :: rest =>
    match allocInWords r.bitmapMask with
    | some (frame, mask') =>
      some (frame + r.physicalMemoryStartAddress / PAGE_SIZE, 0,
        { r with bitmapMask := mask', freePageFrames := r.freePageFrames - 1 } :: rest)
    | none =>
      match allocInRegions rest with
      | some (pfn, k, rest') => some (pfn, k + 1, r :: rest')
      | none => none

/-- `AddPageFrameToTrackedList` (physical-memory.c:228): only when the heap
is initialized is the `(pfn, regionIndex)` pair appended to the tracked list. -/
def AddPageFrameToTrackedList (s : PMMState) (pfn regionIndex : Nat) : PMMState :=
  if s.heapInitialized then
    { s with trackedPageFrames := KList.AddEntryToList s.trackedPageFrames regionIndex pfn }
  else s

/-- `AllocatePageFrame()` (physical-memory.c:153): scan regions for a clear
bit; on success set it, decrement the region's free count and
`bib->AvailablePageFrames`, track the frame, and return the PFN.  With no
free frame anywhere it returns `-1` (as `unsigned long`: `UINT64_MAX`). -/
def AllocatePageFrame (s : PMMState) : Nat × PMMState :=
  match allocInRegions s.regions with
  | some (pfn, k, regions') =>
    (pfn, AddPageFrameToTrackedList
      { s with regions := regions', availablePageFrames := s.availablePageFrames - 1 } pfn k)
  | none => (UINT64_MAX, s)

/-- `ClearBit` (common.c:379) on a region's bitmap word list. -/
def clearMaskBit (mask : List Nat) (bit : Nat) : List Nat :=
  mask.set (bit / 64) ((mask.getD (bit / 64) 0) &&& (UINT64_MAX ^^^ (1 <<< (bit % 64))))

/-- Replace the region at index `k`. -/
def setRegion : List Region → Nat → Region → List Region
  | [], _, _ => []
  | _ :: rest, 0, r => r :: rest
  | x :: rest, k + 1, r => x :: setRegion rest k r

/-- `ReleasePageFrame(PageFrameNumber)` (physical-memory.c:201): look the PFN
up in the tracked list; clear the region-relative bit in the owning region's
bitmap and remove (free) the tracking entry.  The C code increments neither
`FreePageFrames` nor `bib->AvailablePageFrames` here.  (On a missing entry
the C code dereferences the null `ListEntry` before its own null check; no
claim exercises that path, and it is modelled as leaving the state
unchanged.) -/
def ReleasePageFrame (s : PMMState) (pfn : Nat) : PMMState :=
  match KList.GetEntryFromList s.trackedPageFrames pfn with
  | none => s
  | some (_, k) =>
    match s.regions.get? k with
    | none => s
    | some r =>
      let rel := pfn - r.physicalMemoryStartAddress / PAGE_SIZE
      { s with
          regions := setRegion s.regions k { r with bitmapMask := clearMaskBit r.bitmapMask rel },
          trackedPageFrames := KList.RemoveEntryFromList s.trackedPageFrames pfn }

/-- Number of set bits in one 64-bit bitmap word. -/
def popcountWord (w : Nat) : Nat := ((List.range 64).filter (fun j => w.testBit j)).length

/-- `popcount(bitmap)` of a whole region. -/
def popcountRegion (r : Region) : Nat := (r.bitmapMask.map popcountWord).sum

/-- The conservation invariant of spec §8.1:
`free_count + popcount(bitmap) == total_frames`. -/
def regionInvariant (r : Region) : Prop :=
  r.freePageFrames + popcountRegion r = r.availablePageFrames

instance (r : Region) : Decidable (regionInvariant r) := by
  unfold regionInvariant; infer_instance

/-- A one-region layout (64 frames starting at the 1 MiB mark, all free,
heap already initialized so that frames are tracked). -/
def c1InitState : PMMState :=
  { regions := [{ physicalMemoryStartAddress := 0x100000, availablePageFrames := 64,
                  bitmapMaskSize := 8, freePageFrames := 64, bitmapMask := [0] }],
    trackedPageFrames := [], heapInitialized := true, availablePageFrames := 64 }

/-- `AllocatePageFrame()` then `ReleasePageFrame` of the PFN it returned. -/
def c1AfterRelease : PMMState :=
  let a := AllocatePageFrame c1InitState
  ReleasePageFrame a.2 a.1

/-- **C1.** Evaluating the code on one allocate/release round from a fresh
64-frame region: the allocation returns PFN 256 and maintains the invariant,
and the release does clear the bitmap bit and free the tracking entry — but
leaves `FreePageFrames` at 63, so afterwards
`free_count + popcount(bitmap) = 63 ≠ 64 = total_frames`: `ReleasePageFrame`
omits the free-count increment the claim describes. -/
theorem c1_release_omits_free_count_increment :
    (AllocatePageFrame c1InitState).1 = 256 ∧
      regionInvariant ((AllocatePageFrame c1InitState).2.regions.getD 0 default) ∧
      c1AfterRelease.trackedPageFrames = [] ∧
      popcountRegion (c1AfterRelease.regions.getD 0 default) = 0 ∧
      (c1AfterRelease.regions.getD 0 default).freePageFrames = 63 ∧
      ¬ regionInvariant (c1AfterRelease.regions.getD 0 default) := by
  refine ⟨rfl, by decide, rfl, by decide, rfl, by decide⟩

end PMM

namespace VMM

/-!
The page-fault path of `memory/virtual-memory.c` and the exception dispatch
of `isr/idt.c`.  Through the recursive mapping, `HandlePageFault` reads and
writes the entries of the current address space's four table levels at the
indices carved out of the faulting virtual address; the four levels are
modelled as entry maps keyed by those index paths.
-/

/-- `PT_ENTRIES` (virtual-memory.h). -/
def PT_ENTRIES : Nat := 512

/-- `PML4_INDEX(V)` (virtual-memory.h:67). -/
def PML4_INDEX (v : Nat) : Nat := (v >>> 39) &&& (PT_ENTRIES - 1)

/-- `PDP_INDEX(V)` (virtual-memory.h:68). -/
def PDP_INDEX (v : Nat) : Nat := (v >>> 30) &&& (PT_ENTRIES - 1)

/-- `PD_INDEX(V)` (virtual-memory.h:69). -/
def PD_INDEX (v : Nat) : Nat := (v >>> 21) &&& (PT_ENTRIES - 1)

/-- `PT_INDEX(V)` (virtual-memory.h:70). -/
def PT_INDEX (v : Nat) : Nat := (v >>> 12) &&& (PT_ENTRIES - 1)

/-- A page-table entry (any of the four levels); only the bits the handler
touches are modelled.  `frame` is the 36-bit `Frame` bitfield, so stores are
truncated mod `2 ^ 36`. -/
structure Entry where
  present : Bool
  readWrite : Bool
  user : Bool
  frame : Nat
deriving Repr, DecidableEq

/-- A non-present, zeroed entry. -/
def Entry.empty : Entry := ⟨false, false, false, 0⟩

/-- The paging structures reachable from the current PML4 via the recursive
mapping, keyed by the index path from the top. -/
structure PagingState where
  pml4 : Nat → Entry
  pdp : Nat → Nat → Entry
  pd : Nat → Nat → Nat → Entry
  pt : Nat → Nat → Nat → Nat → Entry

/-- An address space with nothing mapped at all. -/
def PagingState.empty : PagingState :=
  ⟨fun _ => Entry.empty, fun _ _ => Entry.empty,
   fun _ _ _ => Entry.empty, fun _ _ _ _ => Entry.empty⟩

/-- An entry freshly installed by the handler: `{present, writable, user}`
with the 36-bit `Frame` field set to `pfn % 2 ^ 36`. -/
def installedEntry (pfn : Nat) : Entry := ⟨true, true, true, pfn % 2 ^ 36⟩

/-- The PML4-level block of `HandlePageFault` (virtual-memory.c:172-183). -/
def stepPML4 (p : PagingState × PMM.PMMState) (v : Nat) : PagingState × PMM.PMMState :=
  if (p.1.pml4 (PML4_INDEX v)).present then p
  else
    let a := PMM.AllocatePageFrame p.2
    ({ p.1 with pml4 := fun i => if i = PML4_INDEX v then installedEntry a.1 else p.1.pml4 i },
      a.2)

/-- The PDP-level block of `HandlePageFault` (virtual-memory.c:185-196). -/
def stepPDP (p : PagingState × PMM.PMMState) (v : Nat) : PagingState × PMM.PMMState :=
  if (p.1.pdp (PML4_INDEX v) (PDP_INDEX v)).present then p
  else
    let a := PMM.AllocatePageFrame p.2
    ({ p.1 with
        pdp := fun i j =>
          if i = PML4_INDEX v ∧ j = PDP_INDEX v then installedEntry a.1 else p.1.pdp i j },
      a.2)

/-- The PD-level block of `HandlePageFault` (virtual-memory.c:198-209). -/
def stepPD (p : PagingState × PMM.PMMState) (v : Nat) : PagingState × PMM.PMMState :=
  if (p.1.pd (PML4_INDEX v) (PDP_INDEX v) (PD_INDEX v)).present then p
  else
    let a := PMM.AllocatePageFrame p.2
    ({ p.1 with
        pd := fun i j k =>
          if i = PML4_INDEX v ∧ j = PDP_INDEX v ∧ k = PD_INDEX v then installedEntry a.1
          else p.1.pd i j k },
      a.2)

/-- The PT-level block of `HandlePageFault` (virtual-memory.c:211-222). -/
def stepPT (p : PagingState × PMM.PMMState) (v : Nat) : PagingState × PMM.PMMState :=
  if (p.1.pt (PML4_INDEX v) (PDP_INDEX v) (PD_INDEX v) (PT_INDEX v)).present then p
  else
    let a := PMM.AllocatePageFrame p.2
    ({ p.1 with
        pt := fun i j k m =>
          if i = PML4_INDEX v ∧ j = PDP_INDEX v ∧ k = PD_INDEX v ∧ m = PT_INDEX v then
            installedEntry a.1
          else p.1.pt i j k m },
      a.2)

/-- `HandlePageFault(VirtualAddress)` (virtual-memory.c:150): for each of
PML4 → PDPT → PD → PT, if the entry on the address's index path is not
present, call `AllocatePageFrame()` and install whatever it returns —
there is no canonicality, reserved-bit or exhaustion check, and the
function always returns to the faulting context. -/
def HandlePageFault (st : PagingState) (alloc : PMM.PMMState) (v : Nat) :
    PagingState × PMM.PMMState :=
  stepPT (stepPD (stepPDP (stepPML4 (st, alloc) v) v) v) v

/-- `#define EXCEPTION_PAGE_FAULT 14` (idt.h). -/
def EXCEPTION_PAGE_FAULT : Nat := 14

/-- Outcome of `IsrHandler`: either the fault was handled and the faulting
context is resumed, or the diagnostic screen is rendered and the system
halts in `while (1 == 1) {}`. -/
inductive IsrResult
  | handled (st : PagingState × PMM.PMMState)
  | fatalHalt
deriving Inhabited

/-- `IsrHandler(InterruptNumber, cr2, Registers)` (idt.c:99): vector 14 goes
to `HandlePageFault(cr2)`; every other exception displays the register dump
and halts. -/
def IsrHandler (interruptNumber : Nat) (cr2 : Nat) (st : PagingState)
    (alloc : PMM.PMMState) : IsrResult :=
  if interruptNumber = EXCEPTION_PAGE_FAULT then
    .handled (HandlePageFault st alloc cr2)
  else
    .fatalHalt

/-- A one-region allocator state whose only bitmap word is full: every frame
is allocated, so `AllocatePageFrame` returns the sentinel. -/
def exhaustedPMM : PMM.PMMState :=
  { regions := [{ physicalMemoryStartAddress := 0x100000, availablePageFrames := 64,
                  bitmapMaskSize := 8, freePageFrames := 0, bitmapMask := [PMM.UINT64_MAX] }],
    trackedPageFrames := [], heapInitialized := true, availablePageFrames := 0 }

/-- A canonical user-half address whose translation is entirely unmapped in
`PagingState.empty`. -/
def c4FaultAddress : Nat := 0x0000700000000000

/-- **C4, counterexample.** On allocator exhaustion the page-fault path does
*not* delegate to the exception handler and halt: `IsrHandler` for vector 14
returns `handled`, and `HandlePageFault` has installed the allocator's
sentinel (`(unsigned long)-1`, truncated to the 36-bit `Frame` field) as a
present mapping, contradicting the claim. -/
theorem c4_exhaustion_installs_sentinel_counterexample :
    PMM.AllocatePageFrame exhaustedPMM = (PMM.UINT64_MAX, exhaustedPMM) ∧
      IsrHandler EXCEPTION_PAGE_FAULT c4FaultAddress PagingState.empty exhaustedPMM
        = .handled (HandlePageFault PagingState.empty exhaustedPMM c4FaultAddress) ∧
      ((HandlePageFault PagingState.empty exhaustedPMM c4FaultAddress).1.pml4
          (PML4_INDEX c4FaultAddress))
        = { present := true, readWrite := true, user := true, frame := 2 ^ 36 - 1 } := by
  refine ⟨by decide, rfl, by decide⟩

/-- **C4, amended.** What the code actually does: the page-fault vector (14)
is unconditionally non-fatal — `IsrHandler` hands *every* faulting address
to `HandlePageFault`, which demand-installs any missing PML4/PDPT/PD/PT
entries with whatever `AllocatePageFrame` returns (the sentinel included)
and resumes the faulting context — while every other exception vector is
fatal (register dump, then halt). -/
theorem c4_page_fault_dispatch_amended (n cr2 : Nat) (st : PagingState)
    (alloc : PMM.PMMState) :
    (n = EXCEPTION_PAGE_FAULT →
      IsrHandler n cr2 st alloc = .handled (HandlePageFault st alloc cr2)) ∧
    (n ≠ EXCEPTION_PAGE_FAULT → IsrHandler n cr2 st alloc = .fatalHalt) ∧
    ((st.pt (PML4_INDEX cr2) (PDP_INDEX cr2) (PD_INDEX cr2) (PT_INDEX cr2)).present = false →
      ((HandlePageFault st alloc cr2).1.pt (PML4_INDEX cr2) (PDP_INDEX cr2)
          (PD_INDEX cr2) (PT_INDEX cr2)).present = true) := by
  refine ⟨fun h => by simp [IsrHandler, h], fun h => by simp [IsrHandler, h], fun h => ?_⟩
  have h4 : ∀ p : PagingState × PMM.PMMState, (stepPML4 p cr2).1.pt = p.1.pt := by
    intro p; unfold stepPML4; split <;> rfl
  have h3 : ∀ p : PagingState × PMM.PMMState, (stepPDP p cr2).1.pt = p.1.pt := by
    intro p; unfold stepPDP; split <;> rfl
  have h2 : ∀ p : PagingState × PMM.PMMState, (stepPD p cr2).1.pt = p.1.pt := by
    intro p; unfold stepPD; split <;> rfl
  unfold HandlePageFault stepPT
  rw [h2, h3, h4]
  simp [h, installedEntry]

/-- Witness for C4 (amended) at vector 14 and vector 13 (general protection)
with a concrete fault address, an empty address space and the exhausted
allocator. -/
theorem c4_page_fault_dispatch_amended_witness :
    IsrHandler 14 c4FaultAddress PagingState.empty exhaustedPMM
        = .handled (HandlePageFault PagingState.empty exhaustedPMM c4FaultAddress) ∧
      IsrHandler 13 c4FaultAddress PagingState.empty exhaustedPMM = .fatalHalt ∧
      ((HandlePageFault PagingState.empty exhaustedPMM c4FaultAddress).1.pt
          (PML4_INDEX c4FaultAddress) (PDP_INDEX c4FaultAddress)
          (PD_INDEX c4FaultAddress) (PT_INDEX c4FaultAddress)).present = true :=
  ⟨(c4_page_fault_dispatch_amended 14 c4FaultAddress PagingState.empty exhaustedPMM).1 rfl,
   (c4_page_fault_dispatch_amended 13 c4FaultAddress PagingState.empty exhaustedPMM).2.1
     (by decide),
   (c4_page_fault_dispatch_amended 14 c4FaultAddress PagingState.empty exhaustedPMM).2.2
     (by decide)⟩

end VMM

namespace Timer

/-- `InitTimer(Hertz)` (timer.c:9) programs the PIT with divisor
`1193180 / Hertz`. -/
def InitTimerDivisor (hertz : Nat) : Nat := 1193180 / hertz

/-- `InitKernel` (kernel.c:58) calls `InitTimer(1000)`. -/
def kernelTimerHertz : Nat := 1000

/-- `MoveToNextTask` (multitasking.c:261) increments the system date once
every `counter % 250 == 0` ticks. -/
def dateIncrementPeriodTicks : Nat := 250

end Timer

namespace Mt

/-- `TASK_STATUS_RUNNABLE` (multitasking.h). -/
def TASK_STATUS_RUNNABLE : Nat := 1

/-- `TASK_STATUS_RUNNING` (multitasking.h). -/
def TASK_STATUS_RUNNING : Nat := 2

/-- The fields of a `Task` record the scheduler path touches. -/
structure SchedTask where
  pid : Nat
  status : Nat
  contextSwitches : Nat
deriving Repr, DecidableEq, Inhabited

/-- The task-list manipulation of `MoveToNextTask` (multitasking.c:237-251):
mark the head `TASK_STATUS_RUNNABLE`, remove it, append it at the tail
(`RemoveEntryFromList` + `AddEntryToList` keep key order), then mark the new
head `TASK_STATUS_RUNNING` and increment its `ContextSwitches`. -/
def MoveToNextTaskList : List SchedTask → List SchedTask
  | [] => []
  | h :: rest =>
    match rest ++ [{ h with status := TASK_STATUS_RUNNABLE }] with
    | [] => []
    | nh :: nrest =>
      { nh with status := TASK_STATUS_RUNNING,
                contextSwitches := nh.contextSwitches + 1 } :: nrest

/-- The multitasking state driven by the timer vector: the `TaskList`, the
context-switch `counter` (multitasking.c:20), and how often
`IncrementSystemDate()` has been called. -/
structure MtState where
  taskList : List SchedTask
  counter : Nat
  secondsIncremented : Nat
deriving Repr, DecidableEq

/-- `MoveToNextTask()` (multitasking.c:237): rotate the task list, bump the
counter, and increment the system date when `counter % 250 == 0`. -/
def MoveToNextTask (s : MtState) : MtState :=
  { taskList := MoveToNextTaskList s.taskList,
    counter := s.counter + 1,
    secondsIncremented :=
      if (s.counter + 1) % Timer.dateIncrementPeriodTicks = 0 then s.secondsIncremented + 1
      else s.secondsIncremented }

/-- `N` consecutive timer-driven context switches. -/
def iterateSwitches : Nat → MtState → MtState
  | 0, s => s
  | n + 1, s => MoveToNextTask (iterateSwitches n s)

/-- The rotations of the task list alone. -/
def iterTaskList : Nat → List SchedTask → List SchedTask
  | 0, l => l
  | n + 1, l => MoveToNextTaskList (iterTaskList n l)

/-- **C5, counterexample.** The claim says the PIT fires every ~4 ms
(≈ 250 ticks per second), consistently with the 1-second-per-250-ticks date
increment.  The kernel programs `InitTimer(1000)` — divisor 1193, i.e. about
1000 ticks per second (~1 ms), not 250: the programmed PIT rate and the
250-tick wall-clock increment are inconsistent by a factor of four. -/
theorem c5_tick_rate_counterexample :
    Timer.InitTimerDivisor Timer.kernelTimerHertz = 1193 ∧
      1193180 / Timer.InitTimerDivisor Timer.kernelTimerHertz = 1000 ∧
      Timer.dateIncrementPeriodTicks = 250 ∧
      1193180 / Timer.InitTimerDivisor Timer.kernelTimerHertz ≠
        Timer.dateIncrementPeriodTicks := by
  refine ⟨rfl, rfl, rfl, by decide⟩

/-- **C5, amended.** The PIT is programmed at 1000 Hz (`InitTimer(1000)`,
divisor `1193180 / 1000 = 1193`, ≈1 ms per tick), and the context-switch
path increments the system date exactly once per 250 ticks: after `T`
switches from a fresh counter, `IncrementSystemDate` has run `T / 250`
times (so the wall clock advances 1 s per 250 ticks — which at the
programmed rate is 1 s of wall clock per quarter second of real time, not
the ~4 ms-per-tick consistency the original claim stated). -/
theorem c5_timer_and_date_amended (l : List SchedTask) (T : Nat) :
    Timer.InitTimerDivisor Timer.kernelTimerHertz = 1193 ∧
      (iterateSwitches T ⟨l, 0, 0⟩).counter = T ∧
      (iterateSwitches T ⟨l, 0, 0⟩).secondsIncremented = T / 250 := by
  refine ⟨rfl, ?_⟩
  induction T with
  | zero => exact ⟨rfl, rfl⟩
  | succ T ih =>
    simp only [iterateSwitches, MoveToNextTask, ih.1, ih.2]
    refine ⟨trivial, ?_⟩
    show (if (T + 1) % Timer.dateIncrementPeriodTicks = 0 then T / 250 + 1 else T / 250)
      = (T + 1) / 250
    simp only [Timer.dateIncrementPeriodTicks]
    rw [Nat.succ_div]
    by_cases hd : (250 : Nat) ∣ T + 1
    · rw [if_pos (by omega), if_pos hd]
    · rw [if_neg (by omega), if_neg hd]
      omega

/-- Projection of a task to the pair the fairness statement tracks:
`(PID, ContextSwitches)`. -/
def piTask (t : SchedTask) : Nat × Nat := (t.pid, t.contextSwitches)

/-- The effect of one `MoveToNextTask` rotation on `(PID, ContextSwitches)`
pairs: rotate by one and increment the new head's counter. -/
def rotBump : List (Nat × Nat) → List (Nat × Nat)
  | [] => []
  | h :: rest =>
    match rest ++ [h] with
    | [] => []
    | nh :: nrest => (nh.1, nh.2 + 1) :: nrest

theorem rotBump_singleton (x : Nat × Nat) : rotBump [x] = [(x.1, x.2 + 1)] := rfl

theorem rotBump_cons_cons (x y : Nat × Nat) (ys : List (Nat × Nat)) :
    rotBump (x :: y :: ys) = (y.1, y.2 + 1) :: (ys ++ [x]) := rfl

theorem moveToNextTaskList_cons_cons (h r : SchedTask) (rs : List SchedTask) :
    MoveToNextTaskList (h :: r :: rs) =
      { r with status := TASK_STATUS_RUNNING, contextSwitches := r.contextSwitches + 1 }
        :: (rs ++ [{ h with status := TASK_STATUS_RUNNABLE }]) := rfl

theorem map_piTask_move : ∀ l : List SchedTask,
    (MoveToNextTaskList l).map piTask = rotBump (l.map piTask)
  | [] => rfl
  | [_] => rfl
  | h :: r :: rs => by
    rw [moveToNextTaskList_cons_cons]
    simp only [List.map_cons, rotBump_cons_cons, List.map_append, List.map_nil]
    simp [piTask]

/-- `n` rotations on the projected pairs. -/
def iterRotBump : Nat → List (Nat × Nat) → List (Nat × Nat)
  | 0, L => L
  | n + 1, L => rotBump (iterRotBump n L)

theorem map_piTask_iter (n : Nat) (l : List SchedTask) :
    (iterTaskList n l).map piTask = iterRotBump n (l.map piTask) := by
  induction n with
  | zero => rfl
  | succ n ih => simp [iterTaskList, iterRotBump, map_piTask_move, ih]

theorem iterateSwitches_taskList (N : Nat) (s : MtState) :
    (iterateSwitches N s).taskList = iterTaskList N s.taskList := by
  induction N with
  | zero => rfl
  | succ N ih => simp [iterateSwitches, iterTaskList, MoveToNextTask, ih]

/-- How many of the first `N` context switches dispatch the task that
started at list position `j` (for a `K`-task list): switch number `i`
(1-based) dispatches original position `i % K`.  Closed form. -/
def dispatchCount (N K j : Nat) : Nat :=
  if j = 0 then N / K else (N + K - j) / K

theorem dispatchCount_zero (K j : Nat) (hj : j < K) : dispatchCount 0 K j = 0 := by
  unfold dispatchCount
  by_cases h0 : j = 0
  · simp [h0]
  · rw [if_neg h0]
    exact Nat.div_eq_of_lt (by omega)

theorem dispatchCount_succ (N K j : Nat) (hK : 0 < K) (hj : j < K) :
    dispatchCount (N + 1) K j
      = dispatchCount N K j + (if (N + 1) % K = j then 1 else 0) := by
  unfold dispatchCount
  by_cases h0 : j = 0
  · subst h0
    rw [if_pos rfl, if_pos rfl, Nat.succ_div]
    congr 1
    by_cases hd : K ∣ N + 1
    · rw [if_pos hd, if_pos (Nat.mod_eq_zero_of_dvd hd)]
    · rw [if_neg hd, if_neg (fun h => hd (Nat.dvd_of_mod_eq_zero h))]
  · rw [if_neg h0, if_neg h0]
    have h1 : N + 1 + K - j = (N + K - j) + 1 := by omega
    rw [h1, Nat.succ_div]
    congr 1
    by_cases hle : j ≤ N + 1
    · have h2 : N + K - j + 1 = (N + 1 - j) + K := by omega
      rw [h2]
      by_cases hd : K ∣ N + 1 - j
      · rw [if_pos (Nat.dvd_add_self_right.2 hd), if_pos ?_]
        obtain ⟨m, hm⟩ := hd
        have h3 : N + 1 = j + K * m := by omega
        rw [h3, Nat.add_mul_mod_self_left, Nat.mod_eq_of_lt hj]
      · rw [if_neg (fun h => hd (Nat.dvd_add_self_right.1 h)), if_neg ?_]
        intro h
        apply hd
        have h4 := Nat.div_add_mod (N + 1) K
        exact ⟨(N + 1) / K, by omega⟩
    · have hpos : 0 < N + K - j + 1 := by omega
      have hlt : N + K - j + 1 < K := by omega
      rw [if_neg (Nat.not_dvd_of_pos_of_lt hpos hlt), if_neg ?_]
      rw [Nat.mod_eq_of_lt (by omega : N + 1 < K)]
      omega

theorem dispatchCount_floor_or_ceil (N K j : Nat) (hK : 0 < K) (hj : j < K) :
    dispatchCount N K j = N / K ∨ dispatchCount N K j = (N + K - 1) / K := by
  unfold dispatchCount
  by_cases h0 : j = 0
  · left; rw [if_pos h0]
  · rw [if_neg h0]
    have hfloor : N / K ≤ (N + K - j) / K := Nat.div_le_div_right (by omega)
    have hceil : (N + K - j) / K ≤ (N + K - 1) / K := Nat.div_le_div_right (by omega)
    have h1 : (N + K) / K = N / K + 1 := Nat.add_div_right N hK
    have h2 : (N + K - 1) / K ≤ (N + K) / K := Nat.div_le_div_right (by omega)
    omega

/-- The projected task list after `n` rotations, in closed form: the pair at
position `p` is the original pair at position `(p + n) % K`, with its
counter advanced by its dispatch count. -/
def realizedPi (L : List (Nat × Nat)) (n : Nat) : List (Nat × Nat) :=
  (List.range L.length).map (fun p =>
    ((L.getD ((p + n) % L.length) (0, 0)).1,
     (L.getD ((p + n) % L.length) (0, 0)).2 + dispatchCount n L.length ((p + n) % L.length)))

theorem realizedPi_length (L : List (Nat × Nat)) (n : Nat) :
    (realizedPi L n).length = L.length := by simp [realizedPi]

theorem realizedPi_getD (L : List (Nat × Nat)) (n p : Nat) (hp : p < L.length) :
    (realizedPi L n).getD p (0, 0)
      = ((L.getD ((p + n) % L.length) (0, 0)).1,
         (L.getD ((p + n) % L.length) (0, 0)).2
           + dispatchCount n L.length ((p + n) % L.length)) := by
  unfold realizedPi
  rw [List.getD_eq_getElem _ _ (by simpa using hp)]
  simp

theorem realizedPi_zero (L : List (Nat × Nat)) : realizedPi L 0 = L := by
  apply List.ext_getElem
  · rw [realizedPi_length]
  · intro p h1 h2
    have hp : p < L.length := by rwa [realizedPi_length] at h1
    rw [← List.getD_eq_getElem _ (0, 0) h1, ← List.getD_eq_getElem _ (0, 0) h2,
      realizedPi_getD _ _ _ hp, Nat.add_zero, Nat.mod_eq_of_lt hp,
      dispatchCount_zero _ _ hp]
    simp

theorem rotBump_length : ∀ L : List (Nat × Nat), (rotBump L).length = L.length
  | [] => rfl
  | [_] => rfl
  | x :: y :: ys => by rw [rotBump_cons_cons]; simp

theorem rotBump_getD : ∀ (L : List (Nat × Nat)) (p : Nat), p < L.length →
    (rotBump L).getD p (0, 0)
      = (if p = 0 then
            ((L.getD ((p + 1) % L.length) (0, 0)).1,
             (L.getD ((p + 1) % L.length) (0, 0)).2 + 1)
         else L.getD ((p + 1) % L.length) (0, 0))
  | [], p, hp => by simp at hp
  | [x], p, hp => by
    have h0 : p = 0 := by simpa using hp
    subst h0
    rw [rotBump_singleton]
    simp
  | x :: y :: ys, p, hp => by
    rw [rotBump_cons_cons]
    cases p with
    | zero =>
      have h1 : (0 + 1) % (x :: y :: ys).length = 1 :=
        Nat.mod_eq_of_lt (by simp)
      rw [h1, if_pos rfl]
      rfl
    | succ p =>
      rw [if_neg (Nat.succ_ne_zero p)]
      have hlen : (x :: y :: ys).length = ys.length + 2 := by simp
      have hple : p ≤ ys.length := by simp at hp; omega
      rcases Nat.lt_or_ge p ys.length with hplt | hpge
      · have h1 : (p + 1 + 1) % (x :: y :: ys).length = p + 2 := by
          rw [hlen]; exact Nat.mod_eq_of_lt (by omega)
        rw [h1]
        show ((y.1, y.2 + 1) :: (ys ++ [x])).getD (p + 1) (0, 0)
          = (x :: y :: ys).getD (p + 2) (0, 0)
        rw [List.getD_cons_succ, List.getD_cons_succ, List.getD_cons_succ]
        exact List.getD_append _ _ _ _ hplt
      · have hpeq : p = ys.length := by omega
        subst hpeq
        have h1 : (ys.length + 1 + 1) % (x :: y :: ys).length = 0 := by
          rw [hlen]
          simp [Nat.mod_self]
        rw [h1]
        show ((y.1, y.2 + 1) :: (ys ++ [x])).getD (ys.length + 1) (0, 0)
          = (x :: y :: ys).getD 0 (0, 0)
        rw [List.getD_cons_succ, List.getD_cons_zero]
        rw [List.getD_append_right _ _ _ _ (Nat.le_refl _)]
        simp

theorem rotBump_realizedPi (L : List (Nat × Nat)) (hL : 0 < L.length) (n : Nat) :
    rotBump (realizedPi L n) = realizedPi L (n + 1) := by
  apply List.ext_getElem
  · rw [rotBump_length, realizedPi_length, realizedPi_length]
  · intro p h1 h2
    have hp : p < L.length := by rwa [rotBump_length, realizedPi_length] at h1
    rw [← List.getD_eq_getElem _ (0, 0) h1, ← List.getD_eq_getElem _ (0, 0) h2]
    rw [rotBump_getD _ _ (by rwa [realizedPi_length]), realizedPi_length,
      realizedPi_getD _ _ _ (Nat.mod_lt _ hL), realizedPi_getD _ _ _ hp]
    have hidx : ((p + 1) % L.length + n) % L.length = (p + (n + 1)) % L.length := by
      rw [Nat.mod_add_mod]
      congr 1
      omega
    rw [hidx]
    set j := (p + (n + 1)) % L.length with hjdef
    have hj : j < L.length := Nat.mod_lt _ hL
    rw [dispatchCount_succ n L.length j hL hj]
    by_cases hp0 : p = 0
    · subst hp0
      have hcond : (n + 1) % L.length = j := by
        rw [hjdef]
        congr 1
        omega
      rw [if_pos rfl, if_pos hcond]
      simp [Nat.add_assoc]
    · have hcond : (n + 1) % L.length ≠ j := by
        intro h
        rw [hjdef] at h
        have h5 : (n + 1) % L.length = (n + 1 + p) % L.length := by
          rw [h]; congr 1; omega
        have h6 : L.length ∣ (n + 1 + p) - (n + 1) :=
          (Nat.modEq_iff_dvd' (by omega)).1 h5
        have h7 : L.length ∣ p := by simpa using h6
        exact hp0 (Nat.eq_zero_of_dvd_of_lt h7 hp)
      rw [if_neg hp0, if_neg hcond]
      simp

/-- **C8.** Round-robin fairness: starting from any non-empty task list of
`K` tasks, over any `N` consecutive timer-driven context switches the task
that started at position `j` is dispatched (i.e. has its `ContextSwitches`
counter incremented) exactly `dispatchCount N K j` times, which is either
`⌊N/K⌋` or `⌈N/K⌉ = (N + K - 1) / K`; after the `N` switches it sits at
position `(j + (K - N % K)) % K` of the rotated list with its PID intact. -/
theorem c8_round_robin_fairness (l : List Mt.SchedTask) (N j : Nat)
    (hne : l ≠ []) (hj : j < l.length) :
    (((iterateSwitches N ⟨l, 0, 0⟩).taskList.map piTask).getD
        ((j + (l.length - N % l.length)) % l.length) (0, 0)
      = ((l.getD j default).pid,
         (l.getD j default).contextSwitches + dispatchCount N l.length j)) ∧
    (dispatchCount N l.length j = N / l.length ∨
      dispatchCount N l.length j = (N + l.length - 1) / l.length) := by
  have hK : 0 < l.length := List.length_pos.2 hne
  refine ⟨?_, dispatchCount_floor_or_ceil N l.length j hK hj⟩
  rw [iterateSwitches_taskList, map_piTask_iter]
  have hclosed : ∀ n : Nat, iterRotBump n (l.map piTask) = realizedPi (l.map piTask) n := by
    intro n
    induction n with
    | zero => exact (realizedPi_zero _).symm
    | succ n ih =>
      show rotBump (iterRotBump n (l.map piTask)) = _
      rw [ih, rotBump_realizedPi _ (by simpa using hK)]
  rw [hclosed]
  have hplt : (j + (l.length - N % l.length)) % l.length < (l.map piTask).length := by
    simpa using Nat.mod_lt _ hK
  rw [realizedPi_getD _ _ _ hplt]
  have hidx : ((j + (l.length - N % l.length)) % l.length + N) % (l.map piTask).length = j := by
    simp only [List.length_map]
    rw [Nat.mod_add_mod]
    have h1 : j + (l.length - N % l.length) + N = j + l.length * (N / l.length + 1) := by
      have h2 := Nat.mod_add_div N l.length
      have h3 : N % l.length ≤ l.length := le_of_lt (Nat.mod_lt _ hK)
      have h4 : l.length * (N / l.length + 1) = l.length * (N / l.length) + l.length := by ring
      omega
    rw [h1, Nat.add_mul_mod_self_left, Nat.mod_eq_of_lt hj]
  rw [hidx]
  have hLj : (l.map piTask).getD j (0, 0) = piTask (l.getD j default) := by
    rw [List.getD_eq_getElem _ _ (by simpa using hj), List.getD_eq_getElem _ _ hj,
      List.getElem_map]
  rw [List.length_map, hLj]
  rfl

/-- Witness for C8: two tasks, five switches, tracking the task that started
at position 1 (it is dispatched `⌈5/2⌉ = 3` times). -/
theorem c8_round_robin_fairness_witness :
    (((iterateSwitches 5 ⟨[⟨1, 0, 0⟩, ⟨2, 0, 0⟩], 0, 0⟩).taskList.map piTask).getD
        ((1 + (2 - 5 % 2)) % 2) (0, 0)
      = ((([⟨1, 0, 0⟩, ⟨2, 0, 0⟩] : List SchedTask).getD 1 default).pid,
         (([⟨1, 0, 0⟩, ⟨2, 0, 0⟩] : List SchedTask).getD 1 default).contextSwitches
           + dispatchCount 5 2 1)) ∧
    (dispatchCount 5 2 1 = 5 / 2 ∨ dispatchCount 5 2 1 = (5 + 2 - 1) / 2) :=
  c8_round_robin_fairness [⟨1, 0, 0⟩, ⟨2, 0, 0⟩] 5 1 (by decide) (by decide)

end Mt

namespace Fat12

/-!
The FAT12 layer of `io/fat12.c`.  The in-memory FAT buffer is a byte map
`Nat → Nat`, the disk a map from LBA sector number to sector content
(`Nat → Nat`, byte index to value), the root directory a 224-slot list
(`none` = free slot, i.e. `FileName[0] == 0x00`), and the
`FileDescriptorList` a key/payload list as in `list.c`.  Strings are the
byte lists of the C strings' characters (hence NUL-free).
`WriteRootDirectoryAndFAT` flushes the in-memory root directory and FAT
buffers to disk sectors 1..32, which no modelled operation reads back, so
the flush itself is not modelled.  Timestamp fields are not modelled.
-/

/-- `#define EOF 0x0FF0` (fat12.h). -/
def EOF : Nat := 0x0FF0

/-- `#define BYTES_PER_SECTOR 512` (fat12.h). -/
def BYTES_PER_SECTOR : Nat := 512

/-- `#define DATA_AREA_BEGINNING 31` (fat12.h). -/
def DATA_AREA_BEGINNING : Nat := 31

/-- `#define ROOT_DIRECTORY_ENTRIES 224` (fat12.h). -/
def ROOT_DIRECTORY_ENTRIES : Nat := 224

/-- The fields of a `RootDirectoryEntry` (fat12.h) the claims touch.
`nameExt` is the 11-byte `FileName[8] ++ Extension[3]` (a `CreateFile`d
entry has `Attributes[0] = 0`, so `strcmp` against an 11-character name
compares exactly these bytes). -/
structure RootDirEntry where
  nameExt : List Nat
  firstCluster : Nat
  fileSize : Nat
deriving Repr, DecidableEq

/-- A `FileDescriptor` (fat12.h). -/
structure FileDescriptor where
  fileName : List Nat
  extension : List Nat
  fileSize : Nat
  currentFileOffset : Nat
deriving Repr, DecidableEq

/-- The FAT12-relevant kernel state: `ROOT_DIRECTORY_BUFFER`, `FAT_BUFFER`,
the disk behind `ReadSectors`/`WriteSectors`, and `FileDescriptorList`. -/
structure FatState where
  rootDir : List (Option RootDirEntry)
  fat : Nat → Nat
  disk : Nat → Nat → Nat
  fds : List (Nat × FileDescriptor)

/-- The failure mode of the file calls on an unknown handle: they read
`entry->Payload` from the null pointer `GetEntryFromList` returned. -/
inductive Fault
  | nullDeref
deriving Repr, DecidableEq

/-- `FATRead(Cluster)` (fat12.c:620): read the 16-bit little-endian word at
byte offset `Cluster / 2 + Cluster` and take the high 12 bits for an odd
cluster, the low 12 bits for an even one. -/
def FATRead (fat : Nat → Nat) (cluster : Nat) : Nat :=
  let off := cluster / 2 + cluster
  let val := fat off + 256 * fat (off + 1)
  if cluster % 2 = 1 then val >>> 4 else val % 4096

/-- `FATWrite(Cluster, Value)` (fat12.c:647): write the 12-bit value into
the packed byte pair, preserving the neighbouring nibble. -/
def FATWrite (fat : Nat → Nat) (cluster value : Nat) : Nat → Nat :=
  let off := cluster / 2 + cluster
  if cluster % 2 = 0 then
    fun i =>
      if i = off then value % 256
      else if i = off + 1 then (fat (off + 1) / 16 * 16) + (value >>> 8) % 16
      else fat i
  else
    fun i =>
      if i = off then (fat off % 16) + (value % 16) * 16
      else if i = off + 1 then (value >>> 4) % 256
      else fat i

/-- `FindNextFreeFATEntry()` (fat12.c:667): starting at cluster 2, return
the first cluster whose (inline-read, identical to `FATRead`) entry is 0.
`fuel` bounds the `while (result > 0)` loop. -/
def FindNextFreeFATEntryAux (fat : Nat → Nat) : Nat → Nat → Nat
  | 0, cluster => cluster
  | fuel + 1, cluster =>
    let c := cluster + 1
    if FATRead fat c = 0 then c else FindNextFreeFATEntryAux fat fuel c

/-- `FindNextFreeFATEntry()` with enough fuel for the 2880-cluster volume. -/
def FindNextFreeFATEntry (fat : Nat → Nat) : Nat :=
  FindNextFreeFATEntryAux fat 4096 1

/-- `WriteSectors(content, lba, 1)`: replace one disk sector. -/
def writeSector (disk : Nat → Nat → Nat) (lba : Nat) (content : Nat → Nat) :
    Nat → Nat → Nat :=
  fun s i => if s = lba then content i else disk s i

/-- The sector image `CreateFile` writes: a zeroed 512-byte buffer with the
initial content `strcpy`ed over its start (fat12.c:166-170). -/
def paddedContent (content : List Nat) : Nat → Nat :=
  fun i => if i < content.length then content.getD i 0 else 0

/-- The scan of `FindNextFreeRootDirectoryEntry()` (fat12.c:602), carrying
the slot index. -/
def findFreeRootIdxAux : List (Option RootDirEntry) → Nat → Option Nat
  | [], _ => none
  | none :: _, i => some i
  | some _ :: rest, i => findFreeRootIdxAux rest (i + 1)

/-- `FindNextFreeRootDirectoryEntry()` (fat12.c:602): index of the first
free slot (`FileName[0] == 0x00`). -/
def findFreeRootIdx (root : List (Option RootDirEntry)) : Option Nat :=
  findFreeRootIdxAux root 0

/-- The scan of `FindRootDirectoryEntry` (fat12.c:114), carrying the slot
index: skip free slots, `strcmp` the occupied ones. -/
def findRootAux : List (Option RootDirEntry) → Nat → List Nat → Option (Nat × RootDirEntry)
  | [], _, _ => none
  | none :: rest, i, name => findRootAux rest (i + 1) name
  | some e :: rest, i, name =>
    if e.nameExt == name then some (i, e) else findRootAux rest (i + 1) name

/-- `FindRootDirectoryEntry(FileName)` (fat12.c:114): first occupied slot
whose name-and-extension bytes `strcmp`-match, with its index. -/
def FindRootDirectoryEntry (root : List (Option RootDirEntry)) (name11 : List Nat) :
    Option (Nat × RootDirEntry) :=
  findRootAux root 0 name11

/-- `CreateFile(FileName, Extension, InitialContent)` (fat12.c:136): claim a
free root slot and a free FAT cluster, mark the cluster `0xFFF` (end of
chain), fill in name, extension, `strlen(InitialContent)` and the first
cluster, and write the zero-padded initial content to the cluster's data
sector.  With no free root entry, nothing happens. -/
def CreateFile (st : FatState) (fileName ext content : List Nat) : FatState :=
  match findFreeRootIdx st.rootDir with
  | none => st
  | some idx =>
    let startCluster := FindNextFreeFATEntry st.fat
    { st with
        rootDir := st.rootDir.set idx
          (some { nameExt := fileName ++ ext, firstCluster := startCluster,
                  fileSize := content.length }),
        fat := FATWrite st.fat startCluster 0xFFF,
        disk := writeSector st.disk (startCluster + DATA_AREA_BEGINNING)
          (paddedContent content) }

/-- `wrap32`: C `int` two's-complement wraparound. -/
def wrap32 (x : Int) : Int := (x + 2 ^ 31) % 2 ^ 32 - 2 ^ 31

/-- The loop of `HashFileName` (fat12.c:790), in C `int` arithmetic:
`hash += (FileName[i] - 'a') * p; hash %= 1000000007; p *= 41;`
(multiplication and addition wrap, `%` truncates toward zero). -/
def hashLoop : List Nat → Int → Int → Int
  | [], hash, _ => hash
  | c :: rest, hash, p =>
    let hash1 := wrap32 (hash + wrap32 (((c : Int) - 97) * p))
    let hash2 := hash1.tmod 1000000007
    hashLoop rest hash2 (wrap32 (p * 41))

/-- `HashFileName(FileName)` (fat12.c:790); the `int` result is returned as
`unsigned long` (sign-extended, then reinterpreted mod `2 ^ 64`). -/
def HashFileName (name : List Nat) : Nat :=
  ((hashLoop name 0 1) % (2 ^ 64 : Int)).toNat

/-- `tolower` (common.c:211) on one byte. -/
def toLowerByte (b : Nat) : Nat := if 65 ≤ b ∧ b ≤ 90 then b + 32 else b

/-- `ltoa(pid, 10, ...)` (common.c:264): the decimal ASCII digits. -/
def natToDecimalAscii (n : Nat) : List Nat := (Nat.toDigits 10 n).map Char.toNat

/-- `OpenFile(FileName, Extension)` (fat12.c:205): look the 11-byte name up
in the root directory; if found, hash the lowercased name with the current
PID's decimal digits appended, append a fresh descriptor (size from the
root entry, offset 0) to `FileDescriptorList` under that hash, and return
the hash.  Unknown file: return 0. -/
def OpenFile (st : FatState) (pid : Nat) (fileName ext : List Nat) : Nat × FatState :=
  let full := fileName ++ ext
  match FindRootDirectoryEntry st.rootDir full with
  | none => (0, st)
  | some (_, entry) =>
    let hashValue := HashFileName ((full.map toLowerByte) ++ natToDecimalAscii pid)
    let fd : FileDescriptor :=
      { fileName := fileName, extension := ext, fileSize := entry.fileSize,
        currentFileOffset := 0 }
    (hashValue, { st with fds := KList.AddEntryToList st.fds fd hashValue })

/-- Mutate the payload of the list node `GetEntryFromList` finds. -/
def updateFirstWithKey (l : List (Nat × α)) (key : Nat) (f : α → α) : List (Nat × α) :=
  match l with
  | [] => []
  | e :: rest =>
    if e.1 == key then (e.1, f e.2) :: rest else e :: updateFirstWithKey rest key f

/-- `CloseFile(FileHandle)` (fat12.c:246): remove the descriptor if the
handle is known (this one checks the list entry before dereferencing). -/
def CloseFile (st : FatState) (fileHandle : Nat) : FatState :=
  match KList.GetEntryFromList st.fds fileHandle with
  | none => st
  | some _ => { st with fds := KList.RemoveEntryFromList st.fds fileHandle }

/-- `SeekFile(FileHandle, NewFileOffset)` (fat12.c:435): the C code reads
`entry->Payload` *before* its null check, so an unknown handle is a null
dereference; otherwise set the descriptor's offset and return 0. -/
def SeekFile (st : FatState) (fileHandle newFileOffset : Nat) :
    Except Fault (Nat × FatState) :=
  match KList.GetEntryFromList st.fds fileHandle with
  | none => .error .nullDeref
  | some _ =>
    .ok (0, { st with
      fds := updateFirstWithKey st.fds fileHandle
        (fun fd => { fd with currentFileOffset := newFileOffset }) })

/-- `EndOfFile(FileHandle)` (fat12.c:450): null-dereferences on an unknown
handle; otherwise 1 iff the offset equals the file size. -/
def EndOfFile (st : FatState) (fileHandle : Nat) : Except Fault Nat :=
  match KList.GetEntryFromList st.fds fileHandle with
  | none => .error .nullDeref
  | some (_, fd) => .ok (if fd.currentFileOffset = fd.fileSize then 1 else 0)

/-- Walk the FAT chain `n` links from `start` (the read loop of `ReadFile`,
fat12.c:293-297). -/
def walkFat (fat : Nat → Nat) (start : Nat) : Nat → Nat
  | 0 => start
  | n + 1 => FATRead fat (walkFat fat start n)

/-- `ReadFile(FileHandle, Buffer, Length)` (fat12.c:259).  Returns the bytes
left in the caller's buffer (zero-filled for `Length`, then overwritten with
the truncated read) and the new state.  An unknown handle null-dereferences;
a request over one sector returns after the zero-fill; a missing root entry
leaves the zero-filled buffer. -/
def ReadFile (st : FatState) (fileHandle length : Nat) :
    Except Fault (List Nat × FatState) :=
  match KList.GetEntryFromList st.fds fileHandle with
  | none => .error .nullDeref
  | some (_, fd) =>
    if length > BYTES_PER_SECTOR then .ok (List.replicate length 0, st)
    else
      match FindRootDirectoryEntry st.rootDir (fd.fileName ++ fd.extension) with
      | none => .ok (List.replicate length 0, st)
      | some (_, entry) =>
        let cluster := fd.currentFileOffset / BYTES_PER_SECTOR
        let offsetWithinCluster := fd.currentFileOffset % BYTES_PER_SECTOR
        let fatSector := walkFat st.fat entry.firstCluster cluster
        let fatSectorFollowing := FATRead st.fat fatSector
        let len :=
          if fd.currentFileOffset + length > fd.fileSize then
            fd.fileSize - fd.currentFileOffset
          else length
        let fileBuffer : Nat → Nat := fun i =>
          if i < BYTES_PER_SECTOR then st.disk (fatSector + DATA_AREA_BEGINNING) i
          else st.disk (fatSectorFollowing + DATA_AREA_BEGINNING) (i - BYTES_PER_SECTOR)
        let buffer :=
          (List.range length).map (fun i =>
            if i < len then fileBuffer (offsetWithinCluster + i) else 0)
        .ok (buffer,
          { st with
              fds := updateFirstWithKey st.fds fileHandle
                (fun fd => { fd with currentFileOffset := fd.currentFileOffset + len }) })

/-- `AllocateNewClusterToFile(CurrentFATSector)` (fat12.c:769): take the
next free cluster, chain it after the current one, mark it end-of-chain and
zero its data sector. -/
def AllocateNewClusterToFile (st : FatState) (currentFatSector : Nat) : Nat × FatState :=
  let newFatSector := FindNextFreeFATEntry st.fat
  let fat1 := FATWrite st.fat currentFatSector newFatSector
  let fat2 := FATWrite fat1 newFatSector 0xFFF
  (newFatSector,
    { st with fat := fat2,
              disk := writeSector st.disk (newFatSector + DATA_AREA_BEGINNING) (fun _ => 0) })

/-- The cluster-walk loop of `WriteFile` (fat12.c:358-377): follow the chain
`n` links, allocating a fresh cluster whenever the current entry is already
end-of-chain (`>= EOF`). -/
def walkAllocate (st : FatState) (cur : Nat) : Nat → Nat × FatState
  | 0 => (cur, st)
  | n + 1 =>
    let r := walkAllocate st cur n
    let next := FATRead r.2.fat r.1
    if next ≥ EOF then AllocateNewClusterToFile r.2 r.1
    else (next, r.2)

/-- `WriteFile(FileHandle, Buffer, Length)` (fat12.c:326).  An unknown
handle null-dereferences; over a sector, return 0 unchanged; otherwise walk
(and on demand grow) the chain to the offset's cluster, allocate one more
cluster when the write crosses the sector end past the file size, splice
the buffer into the one or two affected sectors, advance the offset, and
grow the recorded file size when the new offset exceeds it. -/
def WriteFile (st : FatState) (fileHandle : Nat) (buffer : List Nat) :
    Except Fault FatState :=
  match KList.GetEntryFromList st.fds fileHandle with
  | none => .error .nullDeref
  | some (_, fd) =>
    let length := buffer.length
    if length > BYTES_PER_SECTOR then .ok st
    else
      match FindRootDirectoryEntry st.rootDir (fd.fileName ++ fd.extension) with
      | none => .ok st
      | some (ridx, entry) =>
        let cluster := fd.currentFileOffset / BYTES_PER_SECTOR
        let offsetWithinCluster := fd.currentFileOffset % BYTES_PER_SECTOR
        let w := walkAllocate st entry.firstCluster cluster
        let currentFatSector := w.1
        let st2 :=
          if offsetWithinCluster + length ≥ BYTES_PER_SECTOR ∧
              fd.fileSize < fd.currentFileOffset + length then
            (AllocateNewClusterToFile w.2 currentFatSector).2
          else w.2
        let fatSectorFollowing := FATRead st2.fat currentFatSector
        let fileBuffer : Nat → Nat := fun i =>
          if i < BYTES_PER_SECTOR then st2.disk (currentFatSector + DATA_AREA_BEGINNING) i
          else st2.disk (fatSectorFollowing + DATA_AREA_BEGINNING) (i - BYTES_PER_SECTOR)
        let newBuffer : Nat → Nat := fun i =>
          if offsetWithinCluster ≤ i ∧ i < offsetWithinCluster + length then
            buffer.getD (i - offsetWithinCluster) 0
          else fileBuffer i
        let disk1 := writeSector st2.disk (currentFatSector + DATA_AREA_BEGINNING)
          (fun i => newBuffer i)
        let disk2 :=
          if offsetWithinCluster + length ≥ BYTES_PER_SECTOR then
            writeSector disk1 (fatSectorFollowing + DATA_AREA_BEGINNING)
              (fun i => newBuffer (BYTES_PER_SECTOR + i))
          else disk1
        let newOffset := fd.currentFileOffset + length
        let fds1 := updateFirstWithKey st2.fds fileHandle
          (fun fd => { fd with currentFileOffset := newOffset })
        if newOffset > entry.fileSize then
          .ok { st2 with
                  disk := disk2,
                  rootDir := st2.rootDir.set ridx (some { entry with fileSize := newOffset }),
                  fds := updateFirstWithKey fds1 fileHandle
                    (fun fd => { fd with fileSize := newOffset }) }
        else
          .ok { st2 with disk := disk2, fds := fds1 }

/-- The chain-clearing loop of `DeallocateFATClusters` (fat12.c:583-595). -/
def deallocLoop : Nat → FatState → Nat → FatState
  | 0, st, _ => st
  | fuel + 1, st, next =>
    if next < EOF then
      let nextNext := FATRead st.fat next
      deallocLoop fuel
        { st with fat := FATWrite st.fat next 0,
                  disk := writeSector st.disk (next + DATA_AREA_BEGINNING) (fun _ => 0) }
        nextNext
    else st

/-- `DeallocateFATClusters(FirstCluster)` (fat12.c:568): free the first
cluster, zero its sector, then walk and clear the rest of the chain. -/
def DeallocateFATClusters (st : FatState) (firstCluster : Nat) : FatState :=
  let next := FATRead st.fat firstCluster
  deallocLoop 4096
    { st with fat := FATWrite st.fat firstCluster 0,
              disk := writeSector st.disk (firstCluster + DATA_AREA_BEGINNING) (fun _ => 0) }
    next

/-- `DeleteFile(FileName, Extension)` (fat12.c:181): clear the FAT chain and
the root entry of a known file; unknown names are a no-op. -/
def DeleteFile (st : FatState) (fileName ext : List Nat) : FatState :=
  match FindRootDirectoryEntry st.rootDir (fileName ++ ext) with
  | none => st
  | some (i, e) =>
    let st1 := DeallocateFATClusters st e.firstCluster
    { st1 with rootDir := st1.rootDir.set i none }

/-- A freshly formatted volume as the FAT12 layer sees it: empty root
directory, the standard FAT12 reserved prefix `F0 FF FF` with everything
else free, zeroed data sectors, no open descriptors. -/
def initialState : FatState :=
  { rootDir := List.replicate ROOT_DIRECTORY_ENTRIES none,
    fat := fun i => if i = 0 then 0xF0 else if i = 1 then 0xFF else if i = 2 then 0xFF else 0,
    disk := fun _ _ => 0,
    fds := [] }

/-- Length of the FAT chain from `start` up to the end-of-chain mark. -/
def fatChainLengthAux (fat : Nat → Nat) : Nat → Nat → Nat
  | 0, _ => 0
  | fuel + 1, c => if FATRead fat c ≥ EOF then 1 else 1 + fatChainLengthAux fat fuel (FATRead fat c)

/-- Chain length with enough fuel for the volume. -/
def fatChainLength (fat : Nat → Nat) (start : Nat) : Nat :=
  fatChainLengthAux fat 4096 start

/-- The current offset of the descriptor behind `fileHandle`. -/
def fdOffset (st : FatState) (fileHandle : Nat) : Option Nat :=
  (KList.GetEntryFromList st.fds fileHandle).map (fun e => e.2.currentFileOffset)

/-- The recorded size of the descriptor behind `fileHandle`. -/
def fdSize (st : FatState) (fileHandle : Nat) : Option Nat :=
  (KList.GetEntryFromList st.fds fileHandle).map (fun e => e.2.fileSize)

end Fat12

namespace Syscalls

/-!
The dispatcher `SysCallHandlerC` of `syscalls/syscall.c`, keyed on the
`SYSCALL_*` numbers of `syscall.h` (1 printf, 2 getpid, 3 terminate,
4 getchar, 5 getcursor, 6 setcursor, 7 execute, 8 print-root-dir,
9 clear-screen, 11 delete, 12 open, 13 close, 14 read, 15 write, 16 eof,
17 seek; number 10, `SYSCALL_CREATEFILE`, has no case and falls through).
Console output, cursor moves and the scheduler's task list are outside the
modelled state; the corresponding cases return exactly the dispatcher's
values.  Register arguments that the C code reinterprets as pointers are
modelled by the pointed-to values. -/

/-- The kernel state the dispatcher touches: the single-byte
`KEYBOARD_BUFFER`, the `USERMODE_PROGRAMM_TO_EXECUTE` slot, the FAT12
state, and the PID `GetTaskState()` reports for the current task. -/
structure KernelState where
  keyboardBuffer : Nat
  pendingExecute : List Nat
  fat : Fat12.FatState
  pid : Nat

/-- The register payload of a syscall, by the role each register plays:
`rsiStr`/`rdxStr` are the strings RSI/RDX point at, `rsiNum`/`rdxNum`/
`rcxNum` the numeric values, `rdxBuf` the byte buffer RDX points at. -/
structure SysCallArgs where
  rsiStr : List Nat
  rdxStr : List Nat
  rsiNum : Nat
  rdxNum : Nat
  rcxNum : Nat
  rdxBuf : List Nat

/-- `SysCallHandlerC(Registers)` (syscall.c:17): dispatch on the syscall
number in RDI; any unknown number falls through to `return 0`.
`getchar` returns the buffered byte through a signed `char`, so values
≥ 0x80 come back sign-extended into the `unsigned long` return register.
The `void`-typed file routines (`ReadFile`, `CloseFile`, `DeleteFile`) leave
the C return value unspecified; it is modelled as 0 and no claim relies on
it. -/
def SysCallHandlerC (st : KernelState) (sysCallNumber : Nat) (args : SysCallArgs) :
    Except Fat12.Fault (Nat × KernelState) :=
  if sysCallNumber = 1 then .ok (1, st)
  else if sysCallNumber = 2 then .ok (st.pid, st)
  else if sysCallNumber = 3 then .ok (1, st)
  else if sysCallNumber = 4 then
    let returnValue :=
      if st.keyboardBuffer < 128 then st.keyboardBuffer
      else 2 ^ 64 - 256 + st.keyboardBuffer
    .ok (returnValue, { st with keyboardBuffer := 0 })
  else if sysCallNumber = 5 then .ok (1, st)
  else if sysCallNumber = 6 then .ok (1, st)
  else if sysCallNumber = 7 then
    match Fat12.FindRootDirectoryEntry st.fat.rootDir args.rsiStr with
    | some _ => .ok (1, { st with pendingExecute := args.rsiStr })
    | none => .ok (0, st)
  else if sysCallNumber = 8 then .ok (1, st)
  else if sysCallNumber = 9 then .ok (1, st)
  else if sysCallNumber = 11 then
    .ok (0, { st with fat := Fat12.DeleteFile st.fat args.rsiStr args.rdxStr })
  else if sysCallNumber = 12 then
    let r := Fat12.OpenFile st.fat st.pid args.rsiStr args.rdxStr
    .ok (r.1, { st with fat := r.2 })
  else if sysCallNumber = 13 then
    .ok (0, { st with fat := Fat12.CloseFile st.fat args.rsiNum })
  else if sysCallNumber = 14 then
    match Fat12.ReadFile st.fat args.rsiNum args.rcxNum with
    | .error f => .error f
    | .ok r => .ok (0, { st with fat := r.2 })
  else if sysCallNumber = 15 then
    match Fat12.WriteFile st.fat args.rsiNum args.rdxBuf with
    | .error f => .error f
    | .ok st2 => .ok (0, { st with fat := st2 })
  else if sysCallNumber = 16 then
    match Fat12.EndOfFile st.fat args.rsiNum with
    | .error f => .error f
    | .ok v => .ok (v, st)
  else if sysCallNumber = 17 then
    match Fat12.SeekFile st.fat args.rsiNum args.rdxNum with
    | .error f => .error f
    | .ok r => .ok (r.1, { st with fat := r.2 })
  else .ok (0, st)

/-- A kernel state with no file ever opened. -/
def c2State : KernelState :=
  { keyboardBuffer := 0, pendingExecute := [], fat := Fat12.initialState, pid := 1 }

/-- Arguments carrying the unknown file handle 42. -/
def c2Args : SysCallArgs :=
  { rsiStr := [], rdxStr := [], rsiNum := 42, rdxNum := 0, rcxNum := 1, rdxBuf := [65] }

/-- Arguments naming a file (`"TEST    TXT"`) that is not in the root
directory. -/
def c2NameArgs : SysCallArgs :=
  { rsiStr := [84, 69, 83, 84, 32, 32, 32, 32], rdxStr := [84, 88, 84],
    rsiNum := 0, rdxNum := 0, rcxNum := 0, rdxBuf := [] }

/-- **C2.** Evaluating the dispatcher at the failing inputs: a bad syscall
number (99) and an absent file name do return 0 as claimed — but the
read/write/seek/eof syscalls with an unknown handle dereference the null
list entry (`descriptor = entry->Payload` runs before the null check in
fat12.c), instead of returning a sentinel; only `CloseFile` checks first. -/
theorem c2_unknown_handle_faults :
    SysCallHandlerC c2State 99 c2Args = .ok (0, c2State) ∧
      SysCallHandlerC c2State 12 c2NameArgs = .ok (0, c2State) ∧
      SysCallHandlerC c2State 14 c2Args = .error .nullDeref ∧
      SysCallHandlerC c2State 15 c2Args = .error .nullDeref ∧
      SysCallHandlerC c2State 16 c2Args = .error .nullDeref ∧
      SysCallHandlerC c2State 17 c2Args = .error .nullDeref ∧
      SysCallHandlerC c2State 13 c2Args = .ok (0, c2State) := by
  refine ⟨?_, ?_, rfl, rfl, rfl, rfl, ?_⟩ <;> rfl

/-- **C10.** The `getchar` syscall (number 4) is a destructive read of the
single-slot keyboard buffer: it returns the buffered byte (for the
printable, sub-0x80 bytes the keyboard driver publishes) and zeroes the
buffer, so a second `getchar` with no intervening keyboard interrupt
returns 0. -/
theorem c10_getchar_destructive_read (st : KernelState) (args args2 : SysCallArgs)
    (h : st.keyboardBuffer < 128) :
    SysCallHandlerC st 4 args = .ok (st.keyboardBuffer, { st with keyboardBuffer := 0 }) ∧
      SysCallHandlerC { st with keyboardBuffer := 0 } 4 args2
        = .ok (0, { st with keyboardBuffer := 0 }) := by
  constructor
  · simp [SysCallHandlerC, h]
  · simp [SysCallHandlerC]

/-- A kernel state whose keyboard buffer holds `'a'` (0x61). -/
def c10State : KernelState :=
  { keyboardBuffer := 0x61, pendingExecute := [], fat := Fat12.initialState, pid := 1 }

/-- Witness for C10 with the buffer holding `'a'` (0x61). -/
theorem c10_getchar_destructive_read_witness :
    SysCallHandlerC c10State 4 c2Args
        = .ok (c10State.keyboardBuffer, { c10State with keyboardBuffer := 0 }) ∧
      SysCallHandlerC { c10State with keyboardBuffer := 0 } 4 c2Args
        = .ok (0, { c10State with keyboardBuffer := 0 }) :=
  c10_getchar_destructive_read c10State c2Args c2Args (by decide)

end Syscalls

namespace Fat12

/-- `FindRootDirectoryEntry` on a root directory whose only occupied slot
is slot 0 (the fresh volume after one `CreateFile`): the scan returns that
entry at index 0. -/
theorem findRoot_set_replicate (nm : List Nat) (c s : Nat) :
    FindRootDirectoryEntry
        ((List.replicate ROOT_DIRECTORY_ENTRIES (none : Option RootDirEntry)).set 0
          (some ⟨nm, c, s⟩)) nm
      = some (0, ⟨nm, c, s⟩) := by
  show findRootAux (some ⟨nm, c, s⟩ :: List.replicate 223 none) 0 nm = _
  unfold findRootAux
  simp

/-- `GetEntryFromList` on a one-descriptor list finds that descriptor. -/
theorem getEntry_single (k : Nat) (x : FileDescriptor) :
    KList.GetEntryFromList [(k, x)] k = some (k, x) := by
  simp [KList.GetEntryFromList]

/-- Updating the payload of a one-descriptor list's only descriptor. -/
theorem updateFirst_single (k : Nat) (x : FileDescriptor)
    (f : FileDescriptor → FileDescriptor) :
    updateFirstWithKey [(k, x)] k f = [(k, f x)] := by
  simp [updateFirstWithKey]

/-- A one-byte `ReadFile` inside the file: with the descriptor at offset
`n < size`, the call returns the byte of the data sector the FAT chain
walk lands on (`n / 512` links from the first cluster, byte `n % 512`)
and advances the offset by one. -/
theorem readFile_single_byte (root : List (Option RootDirEntry)) (fat : Nat → Nat)
    (disk : Nat → Nat → Nat) (k j c size n : Nat) (fname fext : List Nat)
    (hroot : FindRootDirectoryEntry root (fname ++ fext)
      = some (j, ⟨fname ++ fext, c, size⟩))
    (hn : n < size) :
    ReadFile (⟨root, fat, disk, [(k, ⟨fname, fext, size, n⟩)]⟩ : FatState) k 1
      = .ok ([disk (walkFat fat c (n / BYTES_PER_SECTOR) + DATA_AREA_BEGINNING)
                (n % BYTES_PER_SECTOR)],
             (⟨root, fat, disk, [(k, ⟨fname, fext, size, n + 1⟩)]⟩ : FatState)) := by
  have hget : KList.GetEntryFromList
      ([(k, (⟨fname, fext, size, n⟩ : FileDescriptor))] : List (Nat × FileDescriptor)) k
      = some (k, ⟨fname, fext, size, n⟩) := getEntry_single _ _
  simp only [ReadFile, hget, hroot, gt_iff_lt]
  rw [if_neg (show ¬ BYTES_PER_SECTOR < 1 by decide)]
  rw [if_neg (show ¬ size < n + 1 by omega)]
  rw [show List.range 1 = [0] from rfl]
  simp only [List.map_cons, List.map_nil]
  rw [if_pos (show (0:Nat) < 1 by decide)]
  simp only [Nat.add_zero]
  rw [if_pos (Nat.mod_lt n (show BYTES_PER_SECTOR > 0 by decide))]
  rw [updateFirst_single]

end Fat12


namespace Fat12

/-- `"Das ist ein Test von Klaus"` — the 26-byte initial content
`FAT12Test` (fat12.c:548) creates the file with. -/
def c7Content : List Nat :=
  [68, 97, 115, 32, 105, 115, 116, 32, 101, 105, 110, 32, 84, 101, 115, 116,
   32, 118, 111, 110, 32, 75, 108, 97, 117, 115]

/-- `"TEST    "` (8 bytes). -/
def c7Name : List Nat := [84, 69, 83, 84, 32, 32, 32, 32]

/-- `"TXT"`. -/
def c7Ext : List Nat := [84, 88, 84]

/-- `"Aschenbrenner"` (13 bytes). -/
def c7Asch : List Nat := [65, 115, 99, 104, 101, 110, 98, 114, 101, 110, 110, 101, 114]

/-- The hash `OpenFile` computes for `"test    txt" ++ "1"` (PID 1). -/
def c7Handle : Nat := 421338046

/-- The root directory after the create: the new entry (first cluster 2,
size 26) in slot 0. -/
def c7Root26 : List (Option RootDirEntry) :=
  some ⟨c7Name ++ c7Ext, 2, 26⟩ :: List.replicate 223 none

/-- The root directory after the write has grown the file to 2013 bytes. -/
def c7Root2013 : List (Option RootDirEntry) :=
  some ⟨c7Name ++ c7Ext, 2, 2013⟩ :: List.replicate 223 none

/-- The FAT after the create: cluster 2 marked end-of-chain. -/
def c7Fat1 : Nat → Nat := FATWrite initialState.fat 2 0xFFF

/-- The disk after the create: the zero-padded content in sector 2 + 31. -/
def c7Disk1 : Nat → Nat → Nat :=
  writeSector initialState.disk 33 (paddedContent c7Content)

/-- The descriptor list holding the scenario's single descriptor. -/
def c7FdsB (size off : Nat) : List (Nat × FileDescriptor) :=
  [(c7Handle, ⟨c7Name, c7Ext, size, off⟩)]

/-- FAT after the write's first demand allocation (chain 2 → 3). -/
def c7Fat2 : Nat → Nat := FATWrite (FATWrite c7Fat1 2 3) 3 0xFFF

/-- Disk after zeroing the freshly allocated cluster 3. -/
def c7Disk2 : Nat → Nat → Nat := writeSector c7Disk1 34 (fun _ => 0)

/-- FAT after the second allocation (chain 2 → 3 → 4). -/
def c7Fat3 : Nat → Nat := FATWrite (FATWrite c7Fat2 3 4) 4 0xFFF

/-- Disk after zeroing cluster 4. -/
def c7Disk3 : Nat → Nat → Nat := writeSector c7Disk2 35 (fun _ => 0)

/-- FAT after the third allocation (chain 2 → 3 → 4 → 5). -/
def c7Fat4 : Nat → Nat := FATWrite (FATWrite c7Fat3 4 5) 5 0xFFF

/-- Disk after zeroing cluster 5. -/
def c7Disk4 : Nat → Nat → Nat := writeSector c7Disk3 36 (fun _ => 0)

/-- The final content of cluster 5's sector: `"Aschenbrenner"` spliced at
the in-cluster offset 464 over the zeroed sector. -/
def c7Sector36 : Nat → Nat := fun i =>
  if 464 ≤ i ∧ i < 464 + 13 then c7Asch.getD (i - 464) 0
  else if i < 512 then c7Disk4 36 i
  else c7Disk4 (FATRead c7Fat4 5 + 31) (i - 512)

/-- Disk after the write of the spliced sector. -/
def c7Disk5 : Nat → Nat → Nat := writeSector c7Disk4 36 c7Sector36

/-- The volume after `CreateFile("TEST    ", "TXT", c7Content)`. -/
def c7St1 : FatState := ⟨c7Root26, c7Fat1, c7Disk1, []⟩

/-- The state after `OpenFile("TEST    ", "TXT")` under PID 1. -/
def c7St2 : FatState := ⟨c7Root26, c7Fat1, c7Disk1, c7FdsB 26 0⟩

/-- The state after `SeekFile(handle, 2000)`. -/
def c7St3 : FatState := ⟨c7Root26, c7Fat1, c7Disk1, c7FdsB 26 2000⟩

/-- The state after `WriteFile(handle, "Aschenbrenner", 13)`. -/
def c7St4 : FatState := ⟨c7Root2013, c7Fat4, c7Disk5, c7FdsB 2013 2013⟩

theorem c7_create_eval : CreateFile initialState c7Name c7Ext c7Content = c7St1 := rfl

set_option maxRecDepth 100000 in
theorem c7_open_eval : OpenFile c7St1 1 c7Name c7Ext = (c7Handle, c7St2) := rfl

set_option maxRecDepth 100000 in
theorem c7_seek_eval : SeekFile c7St2 c7Handle 2000 = .ok (0, c7St3) := rfl

set_option maxRecDepth 100000 in
theorem c7_write_eval : WriteFile c7St3 c7Handle c7Asch = .ok c7St4 := rfl

theorem c7_upd (off n : Nat) :
    updateFirstWithKey (c7FdsB 2013 off) c7Handle
        (fun fd => { fd with currentFileOffset := n })
      = c7FdsB 2013 n := by
  simp [updateFirstWithKey, c7FdsB]

theorem c7_getN (n : Nat) : KList.GetEntryFromList (c7FdsB 2013 n) c7Handle
    = some (c7Handle, ⟨c7Name, c7Ext, 2013, n⟩) := by
  simp [c7FdsB, KList.GetEntryFromList]

/-- The post-write volume with the descriptor seeked to offset `n`. -/
def c7StN (n : Nat) : FatState := ⟨c7Root2013, c7Fat4, c7Disk5, c7FdsB 2013 n⟩

theorem c7_seekN_eval (n : Nat) :
    SeekFile c7St4 c7Handle n = .ok (0, c7StN n) := by
  unfold SeekFile
  rw [show KList.GetEntryFromList c7St4.fds c7Handle
      = some (c7Handle, ⟨c7Name, c7Ext, 2013, 2013⟩) from c7_getN 2013]
  show Except.ok (0, { c7St4 with
      fds := updateFirstWithKey c7St4.fds c7Handle
        (fun fd => { fd with currentFileOffset := n }) }) = _
  rw [show c7St4.fds = c7FdsB 2013 2013 from rfl, c7_upd]
  rfl

theorem c7_root : FindRootDirectoryEntry c7Root2013 (c7Name ++ c7Ext)
    = some (0, ⟨c7Name ++ c7Ext, 2, 2013⟩) :=
  findRoot_set_replicate (c7Name ++ c7Ext) 2 2013

theorem c7_read_eval (n : Nat) (hn : n < 2013) :
    ReadFile (c7StN n) c7Handle 1
      = .ok ([c7Disk5 (walkFat c7Fat4 2 (n / 512) + DATA_AREA_BEGINNING) (n % 512)],
             c7StN (n + 1)) :=
  readFile_single_byte c7Root2013 c7Fat4 c7Disk5 c7Handle 0 2 2013 n c7Name c7Ext
    c7_root hn

theorem c7_disk33 (i : Nat) (h : 26 ≤ i) : c7Disk5 33 i = 0 := by
  show paddedContent c7Content i = 0
  unfold paddedContent
  have hlen : c7Content.length = 26 := rfl
  rw [if_neg (by omega)]

theorem c7_disk34 (i : Nat) : c7Disk5 34 i = 0 := rfl

theorem c7_disk35 (i : Nat) : c7Disk5 35 i = 0 := rfl

theorem c7_disk36 (i : Nat) : c7Disk5 36 i = c7Sector36 i := rfl

theorem c7_sector36_low (i : Nat) (h : i < 464) : c7Sector36 i = 0 := by
  unfold c7Sector36
  rw [if_neg (by omega), if_pos (by omega)]
  rfl

theorem c7_sector36_asch (i : Nat) (h1 : 464 ≤ i) (h2 : i < 477) :
    c7Sector36 i = c7Asch.getD (i - 464) 0 := by
  unfold c7Sector36
  rw [if_pos (by omega : 464 ≤ i ∧ i < 464 + 13)]

theorem c7_byte_zero (n : Nat) (h1 : 26 ≤ n) (h2 : n < 2000) :
    c7Disk5 (walkFat c7Fat4 2 (n / 512) + DATA_AREA_BEGINNING) (n % 512) = 0 := by
  rcases Nat.lt_or_ge n 512 with h | h
  · have hdiv : n / 512 = 0 := by omega
    have hmod : n % 512 = n := by omega
    rw [hdiv, hmod]
    exact c7_disk33 n h1
  rcases Nat.lt_or_ge n 1024 with h' | h'
  · have hdiv : n / 512 = 1 := by omega
    rw [hdiv]
    exact c7_disk34 (n % 512)
  rcases Nat.lt_or_ge n 1536 with h'' | h''
  · have hdiv : n / 512 = 2 := by omega
    rw [hdiv]
    exact c7_disk35 (n % 512)
  · have hdiv : n / 512 = 3 := by omega
    have hmod : n % 512 = n - 1536 := by omega
    rw [hdiv, hmod]
    rw [show walkFat c7Fat4 2 3 + DATA_AREA_BEGINNING = 36 from rfl, c7_disk36]
    exact c7_sector36_low _ (by omega)

theorem c7_byte_asch (i : Nat) (hi : i < 13) :
    c7Disk5 (walkFat c7Fat4 2 ((2000 + i) / 512) + DATA_AREA_BEGINNING) ((2000 + i) % 512)
      = c7Asch.getD i 0 := by
  have hdiv : (2000 + i) / 512 = 3 := by omega
  have hmod : (2000 + i) % 512 = 464 + i := by omega
  rw [hdiv, hmod]
  rw [show walkFat c7Fat4 2 3 + DATA_AREA_BEGINNING = 36 from rfl, c7_disk36,
    c7_sector36_asch _ (by omega) (by omega),
    show 464 + i - 464 = i from by omega]

theorem c7_readback_zero (n : Nat) (h1 : 26 ≤ n) (h2 : n < 2000) :
    SeekFile c7St4 c7Handle n = .ok (0, c7StN n) ∧
      ReadFile (c7StN n) c7Handle 1 = .ok ([0], c7StN (n + 1)) := by
  refine ⟨c7_seekN_eval n, ?_⟩
  rw [c7_read_eval n (by omega), c7_byte_zero n h1 h2]

theorem c7_readback_asch (i : Nat) (hi : i < 13) :
    SeekFile c7St4 c7Handle (2000 + i) = .ok (0, c7StN (2000 + i)) ∧
      ReadFile (c7StN (2000 + i)) c7Handle 1
        = .ok ([c7Asch.getD i 0], c7StN (2000 + i + 1)) := by
  refine ⟨c7_seekN_eval (2000 + i), ?_⟩
  rw [c7_read_eval (2000 + i) (by omega), c7_byte_asch i hi]

theorem c7_rootsize :
    (FindRootDirectoryEntry c7St4.rootDir (c7Name ++ c7Ext)).map (fun e => e.2.fileSize)
      = some 2013 := by
  rw [show c7St4.rootDir = c7Root2013 from rfl, c7_root]
  rfl

set_option maxRecDepth 100000 in
/-- **C7.** The E4 scenario on a fresh volume: after
`CreateFile("TEST    ", "TXT", 26-byte content)` and `OpenFile`, seeking to
offset 2000 and writing the 13 bytes `"Aschenbrenner"` makes `WriteFile`
allocate clusters on demand during the chain walk, so the chain from the
file's first cluster (2) grows to exactly four clusters (2 → 3 → 4 → 5,
then end-of-chain); the file size recorded in the root entry and the
descriptor becomes 2013 and the descriptor's offset 2013; for every offset
in 26..1999, `SeekFile` there followed by a 1-byte `ReadFile` yields the
byte 0, and for offsets 2000..2012 it yields `"Aschenbrenner"`'s bytes. -/
theorem c7_sparse_write_grows_chain :
    CreateFile initialState c7Name c7Ext c7Content = c7St1 ∧
      OpenFile c7St1 1 c7Name c7Ext = (c7Handle, c7St2) ∧
      SeekFile c7St2 c7Handle 2000 = .ok (0, c7St3) ∧
      WriteFile c7St3 c7Handle c7Asch = .ok c7St4 ∧
      fatChainLength c7St4.fat 2 = 4 ∧
      walkFat c7St4.fat 2 1 = 3 ∧ walkFat c7St4.fat 2 2 = 4 ∧ walkFat c7St4.fat 2 3 = 5 ∧
      FATRead c7St4.fat 5 = 0xFFF ∧
      (FindRootDirectoryEntry c7St4.rootDir (c7Name ++ c7Ext)).map (fun e => e.2.fileSize)
        = some 2013 ∧
      fdSize c7St4 c7Handle = some 2013 ∧
      fdOffset c7St4 c7Handle = some 2013 ∧
      (∀ n, 26 ≤ n → n < 2000 →
        SeekFile c7St4 c7Handle n = .ok (0, c7StN n) ∧
          ReadFile (c7StN n) c7Handle 1 = .ok ([0], c7StN (n + 1))) ∧
      (∀ i, i < 13 →
        SeekFile c7St4 c7Handle (2000 + i) = .ok (0, c7StN (2000 + i)) ∧
          ReadFile (c7StN (2000 + i)) c7Handle 1
            = .ok ([c7Asch.getD i 0], c7StN (2000 + i + 1))) :=
  ⟨c7_create_eval, c7_open_eval, c7_seek_eval, c7_write_eval,
   rfl, rfl, rfl, rfl, rfl, c7_rootsize, rfl, rfl, c7_readback_zero, c7_readback_asch⟩

/-- Witness for C7's quantified read-back clauses at offsets 100 and
2000 + 5. -/
theorem c7_sparse_write_grows_chain_witness :
    (SeekFile c7St4 c7Handle 100 = .ok (0, c7StN 100) ∧
      ReadFile (c7StN 100) c7Handle 1 = .ok ([0], c7StN (100 + 1))) ∧
      (SeekFile c7St4 c7Handle (2000 + 5) = .ok (0, c7StN (2000 + 5)) ∧
        ReadFile (c7StN (2000 + 5)) c7Handle 1
          = .ok ([c7Asch.getD 5 0], c7StN (2000 + 5 + 1))) :=
  ⟨(c7_sparse_write_grows_chain).2.2.2.2.2.2.2.2.2.2.2.2.1 100 (by decide) (by decide),
   (c7_sparse_write_grows_chain).2.2.2.2.2.2.2.2.2.2.2.2.2 5 (by decide)⟩

end Fat12

namespace Fat12

/-- The state `CreateFile` produces from the fresh volume for name `F`,
extension `ext` and content `C`: root slot 0 claimed, cluster 2 marked
end-of-chain, the zero-padded content written to data sector 33. -/
def c6CreateSt (F ext C : List Nat) : FatState :=
  ⟨(List.replicate ROOT_DIRECTORY_ENTRIES (none : Option RootDirEntry)).set 0
      (some ⟨F ++ ext, 2, C.length⟩),
   FATWrite initialState.fat 2 0xFFF,
   writeSector initialState.disk 33 (paddedContent C),
   []⟩

/-- The handle `OpenFile` returns for name `F`, extension `ext` under `pid`. -/
def c6Handle (pid : Nat) (F ext : List Nat) : Nat :=
  HashFileName (((F ++ ext).map toLowerByte) ++ natToDecimalAscii pid)

/-- The state after `OpenFile`: one descriptor at offset 0. -/
def c6OpenSt (pid : Nat) (F ext C : List Nat) : FatState :=
  { c6CreateSt F ext C with
      fds := [(c6Handle pid F ext, ⟨F, ext, C.length, 0⟩)] }

/-- The state after the full-size read: the descriptor's offset has advanced
to the file size. -/
def c6ReadSt (pid : Nat) (F ext C : List Nat) : FatState :=
  { c6CreateSt F ext C with
      fds := [(c6Handle pid F ext, ⟨F, ext, C.length, C.length⟩)] }

theorem c6_create (F ext C : List Nat) :
    CreateFile initialState F ext C = c6CreateSt F ext C := rfl

theorem c6_open (pid : Nat) (F ext C : List Nat) :
    OpenFile (c6CreateSt F ext C) pid F ext = (c6Handle pid F ext, c6OpenSt pid F ext C) := by
  simp only [OpenFile]
  rw [show FindRootDirectoryEntry (c6CreateSt F ext C).rootDir (F ++ ext)
      = some (0, ⟨F ++ ext, 2, C.length⟩) from findRoot_set_replicate _ _ _]
  rfl

theorem c6_pad_map (C : List Nat) (g : Nat → Nat) (hC : C.length ≤ 512)
    (hg : ∀ i, i < C.length → g i = C.getD i 0) :
    (List.range 512).map (fun i => if i < C.length then g i else 0)
      = C ++ List.replicate (512 - C.length) 0 := by
  apply List.ext_getElem
  · simp; omega
  · intro i h1 h2
    simp only [List.getElem_map, List.getElem_range]
    by_cases hi : i < C.length
    · rw [if_pos hi, hg i hi, List.getElem_append_left hi,
        List.getD_eq_getElem?_getD, List.getElem?_eq_getElem hi, Option.getD_some]
    · rw [if_neg hi, List.getElem_append_right (by omega), List.getElem_replicate]

theorem c6_exact_map (C : List Nat) (g : Nat → Nat)
    (hg : ∀ i, i < C.length → g i = C.getD i 0) :
    (List.range C.length).map (fun i => if i < C.length then g i else 0) = C := by
  apply List.ext_getElem
  · simp
  · intro i h1 h2
    simp only [List.getElem_map, List.getElem_range]
    rw [if_pos h2, hg i h2,
      List.getD_eq_getElem?_getD, List.getElem?_eq_getElem h2, Option.getD_some]

theorem c6_diskPad (C : List Nat) (i : Nat) (hi : i < C.length) :
    writeSector initialState.disk 33 (paddedContent C) (2 + DATA_AREA_BEGINNING) i
      = C.getD i 0 := by
  show paddedContent C i = C.getD i 0
  unfold paddedContent
  rw [if_pos hi]

theorem c6_read_sector (pid : Nat) (F ext C : List Nat) (hC : C.length ≤ 512) :
    ReadFile (c6OpenSt pid F ext C) (c6Handle pid F ext) BYTES_PER_SECTOR
      = .ok (C ++ List.replicate (512 - C.length) 0, c6ReadSt pid F ext C) := by
  have hget : KList.GetEntryFromList (c6OpenSt pid F ext C).fds (c6Handle pid F ext)
      = some (c6Handle pid F ext, ⟨F, ext, C.length, 0⟩) := getEntry_single _ _
  have hroot : FindRootDirectoryEntry (c6OpenSt pid F ext C).rootDir (F ++ ext)
      = some (0, ⟨F ++ ext, 2, C.length⟩) := findRoot_set_replicate _ _ _
  simp only [ReadFile, hget, hroot, gt_iff_lt, walkFat, Nat.zero_add, Nat.sub_zero,
    Nat.zero_div, Nat.zero_mod, lt_irrefl, if_false]
  have hlen : (if C.length < BYTES_PER_SECTOR then C.length else BYTES_PER_SECTOR)
      = C.length := by
    simp only [BYTES_PER_SECTOR]
    rcases Nat.lt_or_ge C.length 512 with h | h
    · rw [if_pos h]
    · rw [if_neg (by omega)]
      omega
  rw [hlen]
  refine congrArg Except.ok (congrArg₂ Prod.mk ?_ ?_)
  · refine c6_pad_map C _ hC ?_
    intro i hi
    rw [if_pos (show i < BYTES_PER_SECTOR by simp only [BYTES_PER_SECTOR]; omega)]
    exact c6_diskPad C i hi
  · rw [show (c6OpenSt pid F ext C).fds
        = [(c6Handle pid F ext, (⟨F, ext, C.length, 0⟩ : FileDescriptor))] from rfl,
      updateFirst_single]
    simp only [Nat.zero_add]
    rfl

theorem c6_read_exact (pid : Nat) (F ext C : List Nat) (hC : C.length ≤ 512) :
    ReadFile (c6OpenSt pid F ext C) (c6Handle pid F ext) C.length
      = .ok (C, c6ReadSt pid F ext C) := by
  have hget : KList.GetEntryFromList (c6OpenSt pid F ext C).fds (c6Handle pid F ext)
      = some (c6Handle pid F ext, ⟨F, ext, C.length, 0⟩) := getEntry_single _ _
  have hroot : FindRootDirectoryEntry (c6OpenSt pid F ext C).rootDir (F ++ ext)
      = some (0, ⟨F ++ ext, 2, C.length⟩) := findRoot_set_replicate _ _ _
  simp only [ReadFile, hget, hroot, gt_iff_lt, walkFat, Nat.zero_add, Nat.sub_zero,
    Nat.zero_div, Nat.zero_mod, lt_irrefl, if_false]
  rw [if_neg (show ¬ BYTES_PER_SECTOR < C.length by simp only [BYTES_PER_SECTOR]; omega)]
  refine congrArg Except.ok (congrArg₂ Prod.mk ?_ ?_)
  · refine c6_exact_map C _ ?_
    intro i hi
    rw [if_pos (show i < BYTES_PER_SECTOR by simp only [BYTES_PER_SECTOR]; omega)]
    exact c6_diskPad C i hi
  · rw [show (c6OpenSt pid F ext C).fds
        = [(c6Handle pid F ext, (⟨F, ext, C.length, 0⟩ : FileDescriptor))] from rfl,
      updateFirst_single]
    simp only [Nat.zero_add]
    rfl

theorem c6_offsets (pid : Nat) (F ext C : List Nat) :
    fdOffset (c6ReadSt pid F ext C) (c6Handle pid F ext) = some C.length ∧
      fdSize (c6ReadSt pid F ext C) (c6Handle pid F ext) = some C.length := by
  constructor <;> simp [fdOffset, fdSize, c6ReadSt, KList.GetEntryFromList]

/-- **C6.** File round-trip (spec §8 property 8): for every name `F`,
extension `ext` and content `C` of at most one sector, `CreateFile` claims
root slot 0 and cluster 2 and writes the zero-padded content;
`OpenFile(F, ext)` returns the name-hash handle with a descriptor at
offset 0; a `ReadFile` of `BYTES_PER_SECTOR` yields exactly `C` padded
with zeros to sector size, a `ReadFile` of the full file size yields
exactly `C`, and in both cases the descriptor's offset afterwards equals
the file size. -/
theorem c6_create_open_read_round_trip (pid : Nat) (F ext C : List Nat)
    (hC : C.length ≤ BYTES_PER_SECTOR) :
    CreateFile initialState F ext C = c6CreateSt F ext C ∧
      OpenFile (c6CreateSt F ext C) pid F ext
        = (c6Handle pid F ext, c6OpenSt pid F ext C) ∧
      ReadFile (c6OpenSt pid F ext C) (c6Handle pid F ext) BYTES_PER_SECTOR
        = .ok (C ++ List.replicate (BYTES_PER_SECTOR - C.length) 0, c6ReadSt pid F ext C) ∧
      ReadFile (c6OpenSt pid F ext C) (c6Handle pid F ext) C.length
        = .ok (C, c6ReadSt pid F ext C) ∧
      fdOffset (c6ReadSt pid F ext C) (c6Handle pid F ext) = some C.length ∧
      fdSize (c6ReadSt pid F ext C) (c6Handle pid F ext) = some C.length :=
  ⟨c6_create F ext C, c6_open pid F ext C, c6_read_sector pid F ext C hC,
   c6_read_exact pid F ext C hC, (c6_offsets pid F ext C).1, (c6_offsets pid F ext C).2⟩

/-- Witness for C6 at PID 1 and the `"TEST    TXT"` file with its 26-byte
content. -/
theorem c6_create_open_read_round_trip_witness :
    c7Content.length ≤ BYTES_PER_SECTOR ∧
      ReadFile (c6OpenSt 1 c7Name c7Ext c7Content) (c6Handle 1 c7Name c7Ext)
          BYTES_PER_SECTOR
        = .ok (c7Content ++ List.replicate (BYTES_PER_SECTOR - c7Content.length) 0,
               c6ReadSt 1 c7Name c7Ext c7Content) :=
  ⟨by decide,
   (c6_create_open_read_round_trip 1 c7Name c7Ext c7Content (by decide)).2.2.1⟩

end Fat12
